import Mathlib

/-!
# getStitchingParam.cpp: a shallow embedding

The C++ program `LinuxStitchingCodes/getStitchingParams/getStitchingParam.cpp`
is embedded function by function.

Conventions of the embedding:

* `double` and `float` values are elements of an arbitrary linearly ordered
  field `α` (exact arithmetic: no rounding, no NaN, no infinities);
  `static_cast<float>` and `convertTo` are the identity.
* `int` values are `Int` (no wrap-around).
* Library routines (`sqrt`, `cvRound`, `imread`, `resize`, feature finders,
  matchers, estimators, bundle adjusters, `CameraParams::K`, `waveCorrect`,
  `resultRoi`, warpers) are parameters, collected in `Env`; they are total
  functions, so an exception thrown inside OpenCV is not part of the
  embedding.
* An out-of-range access, a call through a null pointer or the creation of a
  buffer of negative size is the result `none`.
* Division by zero follows the field (`x / 0 = 0`); the theorems on scales
  assume a positive image area.
* The progress lines of `LOG` and `LOGLN` carry tick counts and are left out;
  the lines that the failure branches print are kept.
-/

namespace Stitching

/-! ## Geometry: `cv::Point`, `cv::Size`, `cv::Rect` -/

/-- The type `cv::Point`. -/
structure Point where
  x : Int
  y : Int
deriving DecidableEq, Repr

/-- The type `cv::Size`. -/
structure Size where
  width : Int
  height : Int
deriving DecidableEq, Repr

/-- The type `cv::Rect`. -/
structure Rect where
  x : Int
  y : Int
  width : Int
  height : Int
deriving DecidableEq, Repr

/-- The member `Size::area()`. -/
def Size.area (s : Size) : Int := s.width * s.height

/-- The member `Rect::tl()`. -/
def Rect.tl (r : Rect) : Point := ⟨r.x, r.y⟩

/-- The member `Rect::size()`. -/
def Rect.size (r : Rect) : Size := ⟨r.width, r.height⟩

/-- The constructor `Rect(const Point& pt1, const Point& pt2)`. -/
def Rect.ofCorners (pt1 pt2 : Point) : Rect :=
  ⟨min pt1.x pt2.x, min pt1.y pt2.y,
   max pt1.x pt2.x - min pt1.x pt2.x, max pt1.y pt2.y - min pt1.y pt2.y⟩

/-! ## Pixel buffers: `cv::Mat` -/

/-- A two-dimensional `cv::Mat` with elements of type `β`: a number of rows, a
number of columns and the element stored at each (row, column). -/
structure Mat (β : Type) where
  rows : Nat
  cols : Nat
  px : Nat → Nat → β

/-- The member `Mat::size()`: `Size(cols, rows)`. -/
def Mat.size {β : Type} (m : Mat β) : Size := ⟨m.cols, m.rows⟩

/-- The value of `Mat::create(rows, cols, type)` followed by `setTo(v)`. -/
def Mat.filled {β : Type} (rows cols : Nat) (v : β) : Mat β := ⟨rows, cols, fun _ _ => v⟩

/-- The assignment `m(r, c) = v`. -/
def Mat.set {β : Type} (m : Mat β) (r c : Nat) (v : β) : Mat β :=
  ⟨m.rows, m.cols, fun i j => if i = r ∧ j = c then v else m.px i j⟩

/-- The type `Point3_<short>`: one pixel of a `CV_16SC3` image. -/
structure Point3 where
  x : Int
  y : Int
  z : Int
deriving DecidableEq, Repr

/-- The value `Scalar::all(0)` as a pixel. -/
def Point3.zero : Point3 := ⟨0, 0, 0⟩

/-! ## Scale manager (lines 136-137, 177-197, 407-414) -/

/-- The call `std::min(a, b)`: `b` when `b < a`, else `a`. -/
def stdMin {α : Type} [LinearOrderedField α] (a b : α) : α := if b < a then b else a

/-- The expression `min(1.0, sqrt(megapix * 1e6 / full_img.size().area()))`. -/
def scaleFormula {α : Type} [LinearOrderedField α] (sqrt : α → α) (megapix : α) (area : Int) : α :=
  stdMin 1 (sqrt (megapix * 1000000 / (area : α)))

/-- The scale variables of `getStitchingParams` that the feature loop assigns. -/
structure ScaleState (α : Type) where
  work_scale : α
  seam_scale : α
  seam_work_aspect : α
  is_work_scale_set : Bool
  is_seam_scale_set : Bool

/-- The initial values (lines 136-137 and 169). -/
def ScaleState.init {α : Type} [LinearOrderedField α] : ScaleState α :=
  ⟨1, 1, 1, false, false⟩

/-- The scale assignments of one iteration of the feature loop (lines 177-197)
for an image of the given area. -/
def featureLoopScales {α : Type} [LinearOrderedField α] (sqrt : α → α)
    (work_megapix seam_megapix : α) (st : ScaleState α) (area : Int) : ScaleState α :=
  let st1 : ScaleState α :=
    if work_megapix < 0 then
      { st with work_scale := 1, is_work_scale_set := true }
    else if !st.is_work_scale_set then
      { st with work_scale := scaleFormula sqrt work_megapix area, is_work_scale_set := true }
    else st
  if !st1.is_seam_scale_set then
    let seam_scale := scaleFormula sqrt seam_megapix area
    { st1 with seam_scale := seam_scale,
               seam_work_aspect := seam_scale / st1.work_scale,
               is_seam_scale_set := true }
  else st1

/-- The scale variables after the feature loop over images of the given areas. -/
def scalesAfterFeatureLoop {α : Type} [LinearOrderedField α] (sqrt : α → α)
    (work_megapix seam_megapix : α) (areas : List Int) : ScaleState α :=
  areas.foldl (featureLoopScales sqrt work_megapix seam_megapix) ScaleState.init

/-- The value of `compose_scale` after the first-touch block of the compose loop
(lines 407-411) for a first image of the given area; the initial value is 1. -/
def composeScaleOf {α : Type} [LinearOrderedField α] (sqrt : α → α)
    (compose_megapix : α) (area : Int) : α :=
  if compose_megapix > 0 then scaleFormula sqrt compose_megapix area else 1

/-! ## Median focal length (lines 295-307) -/

/-- The call `std::sort(focals.begin(), focals.end())`. -/
def stdSort {α : Type} [LinearOrderedField α] (focals : List α) : List α :=
  focals.insertionSort (fun a b => a ≤ b)

/-- The value of `warped_image_scale` of lines 302-307 from the focal lengths in
camera order; `none` when an index is out of range (`focals` is empty). -/
def medianFocal {α : Type} [LinearOrderedField α] (focals : List α) : Option α :=
  let sorted := stdSort focals
  if sorted.length % 2 = 1 then
    sorted[sorted.length / 2]?
  else
    match sorted[sorted.length / 2 - 1]?, sorted[sorted.length / 2]? with
    | some a, some b => some ((a + b) * (1 / 2))
    | _, _ => none

/-- The true median as the specification words it: the middle element of the
sorted list for an odd count, the average of the two middle elements for an
even count. The sorted list is any ascending rearrangement `s` of the input. -/
def trueMedianOfSorted {α : Type} [LinearOrderedField α] (s : List α) : Option α :=
  if s.length % 2 = 1 then s[s.length / 2]?
  else
    match s[s.length / 2 - 1]?, s[s.length / 2]? with
    | some a, some b => some ((a + b) / 2)
    | _, _ => none

/-! ## Refinement mask (lines 266-271) -/

/-- The expression `ba_refine_mask[i]` of a `std::string`: the character when
`i < size()`, the terminating null character when `i = size()`, out of range
beyond. -/
def strAt (s : List Char) (i : Nat) : Option Char :=
  if i < s.length then s[i]?
  else if i = s.length then some (Char.ofNat 0)
  else none

/-- One line `if (ba_refine_mask[i] == 'x') refine_mask(r,c) = 1;`. -/
def refineStep (s : List Char) (i r c : Nat) (m : Mat Nat) : Option (Mat Nat) :=
  match strAt s i with
  | none => none
  | some ch => some (if ch = 'x' then m.set r c 1 else m)

/-- The matrix `refine_mask` built by lines 266-271 from `ba_refine_mask`. -/
def refineMask (ba_refine_mask : List Char) : Option (Mat Nat) :=
  (refineStep ba_refine_mask 0 0 0 (Mat.filled 3 3 0)).bind fun m0 =>
  (refineStep ba_refine_mask 1 0 1 m0).bind fun m1 =>
  (refineStep ba_refine_mask 2 0 2 m1).bind fun m2 =>
  (refineStep ba_refine_mask 3 1 1 m2).bind fun m3 =>
  refineStep ba_refine_mask 4 1 2 m3

/-- The value `refineStep` returns at an index inside the string. -/
def refineStepValue (s : List Char) (i r c : Nat) (m : Mat Nat) : Mat Nat :=
  if s[i]? = some 'x' then m.set r c 1 else m

/-! ## Placement of one warped image: `getWarpedRegisteredImage` (lines 96-124) -/

/-- The body of the inner loop (lines 119-121) at column `x` of source row `y`,
writing destination row `dy`: `if (mask_row[x]) dst_row[corner_x + x] =
src_row[x];` then `dst_mask_row[corner_x + x] |= mask_row[x];`. The state is the
pair `(dst_mask_, dst_)`. -/
def copyPixel (img : Mat Point3) (mask : Mat Nat) (corner_x : Int) (y dy : Nat)
    (st : Mat Nat × Mat Point3) (x : Nat) : Option (Mat Nat × Mat Point3) :=
  let c := corner_x + x
  if x < mask.cols then
    let m := mask.px y x
    let dst? : Option (Mat Point3) :=
      if m ≠ 0 then
        if 0 ≤ c ∧ c < st.2.cols then some (st.2.set dy c.toNat (img.px y x)) else none
      else some st.2
    dst?.bind fun dst =>
      if 0 ≤ c ∧ c < st.1.cols then
        some (st.1.set dy c.toNat (st.1.px dy c.toNat ||| m), dst)
      else none
  else none

/-- The body of the outer loop (lines 112-122) at source row `y`: the four row
pointers are taken, then the inner loop runs over `x < img.cols`. -/
def copyRow (img : Mat Point3) (mask : Mat Nat) (corner_x corner_y : Int)
    (st : Mat Nat × Mat Point3) (y : Nat) : Option (Mat Nat × Mat Point3) :=
  let r := corner_y + y
  if 0 ≤ r ∧ r < st.2.rows ∧ y < mask.rows ∧ r < st.1.rows then
    (List.range img.cols).foldlM (copyPixel img mask corner_x y r.toNat) st
  else none

/-- The function `getWarpedRegisteredImage` (lines 96-124). The buffers
`dst_mask_` and `dst_` are written in place by the C++ code; here the written
buffers are returned, `none` standing for an access outside a buffer. -/
def getWarpedRegisteredImage (img : Mat Point3) (mask : Mat Nat) (tl : Point) (dst_roi_ : Rect)
    (dst_mask_ : Mat Nat) (dst_ : Mat Point3) : Option (Mat Nat × Mat Point3) :=
  let corner_x := tl.x - dst_roi_.x
  let corner_y := tl.y - dst_roi_.y
  (List.range img.rows).foldlM (copyRow img mask corner_x corner_y) (dst_mask_, dst_)

/-- The footprint of an image of `rows` by `cols` pixels placed with its top-left
pixel at row `cy`, column `cx`. -/
def inFootprint (cy cx rows cols r c : Nat) : Prop :=
  cy ≤ r ∧ r < cy + rows ∧ cx ≤ c ∧ c < cx + cols

instance (cy cx rows cols r c : Nat) : Decidable (inFootprint cy cx rows cols r c) := by
  unfold inFootprint; infer_instance

/-- The state of the buffers after the inner loop has run over columns `< n` of
source row `y` (destination row `dy`), starting from `st`. -/
structure RowDone (img : Mat Point3) (mask : Mat Nat) (cx y dy n : Nat)
    (st st1 : Mat Nat × Mat Point3) : Prop where
  rows1 : st1.1.rows = st.1.rows
  cols1 : st1.1.cols = st.1.cols
  rows2 : st1.2.rows = st.2.rows
  cols2 : st1.2.cols = st.2.cols
  mask_px : ∀ r c, st1.1.px r c =
    if r = dy ∧ cx ≤ c ∧ c < cx + n then st.1.px r c ||| mask.px y (c - cx) else st.1.px r c
  img_px : ∀ r c, st1.2.px r c =
    if r = dy ∧ cx ≤ c ∧ c < cx + n ∧ mask.px y (c - cx) ≠ 0 then img.px y (c - cx)
    else st.2.px r c

/-- The state of the buffers after the outer loop has run over source rows
`< k`, starting from `st`, for an image placed at row `cy`, column `cx`. -/
structure Placed (img : Mat Point3) (mask : Mat Nat) (cy cx k : Nat)
    (st st1 : Mat Nat × Mat Point3) : Prop where
  rows1 : st1.1.rows = st.1.rows
  cols1 : st1.1.cols = st.1.cols
  rows2 : st1.2.rows = st.2.rows
  cols2 : st1.2.cols = st.2.cols
  mask_px : ∀ r c, st1.1.px r c =
    if inFootprint cy cx k img.cols r c then st.1.px r c ||| mask.px (r - cy) (c - cx)
    else st.1.px r c
  img_px : ∀ r c, st1.2.px r c =
    if inFootprint cy cx k img.cols r c ∧ mask.px (r - cy) (c - cx) ≠ 0 then
      img.px (r - cy) (c - cx)
    else st.2.px r c

/-! ## Configuration (lines 73-90) and external collaborators -/

/-- The enumeration `detail::WaveCorrectKind`. -/
inductive WaveCorrectKind where
  | WAVE_CORRECT_HORIZ
  | WAVE_CORRECT_VERT
deriving DecidableEq, Repr

/-- The global variables of lines 74-90 that the program reads. -/
structure Config (α : Type) where
  work_megapix : α
  seam_megapix : α
  compose_megapix : α
  conf_thresh : α
  features_type : String
  matcher_type : String
  estimator_type : String
  ba_cost_func : String
  ba_refine_mask : String
  do_wave_correct : Bool
  wave_correct : WaveCorrectKind
  warp_type : String
  match_conf : α
  range_width : Int

/-- The initial values of the global variables (lines 74-90). -/
def Config.default {α : Type} [LinearOrderedField α] : Config α where
  work_megapix := 6 / 10
  seam_megapix := 1 / 10
  compose_megapix := -1
  conf_thresh := 75 / 100
  features_type := "surf"
  matcher_type := "homography"
  estimator_type := "homography"
  ba_cost_func := "ray"
  ba_refine_mask := "xxxxx"
  do_wave_correct := true
  wave_correct := WaveCorrectKind.WAVE_CORRECT_HORIZ
  warp_type := "plane"
  match_conf := 3 / 10
  range_width := -1

/-- The type `detail::CameraParams`; the matrices `R` and `t` are `cv::Mat`. -/
structure CameraParams (α : Type) where
  focal : α
  aspect : α
  ppx : α
  ppy : α
  R : Mat α
  t : Mat α

/-- The feature finder classes of lines 146-158 (build without CUDA). -/
inductive FinderKind where
  | SurfFeaturesFinder
  | OrbFeaturesFinder
deriving DecidableEq, Repr

/-- The matcher classes of lines 221-226. -/
inductive MatcherKind where
  | AffineBestOf2NearestMatcher
  | BestOf2NearestMatcher
  | BestOf2NearestRangeMatcher (range_width : Int)
deriving DecidableEq, Repr

/-- The estimator classes of lines 236-239. -/
inductive EstimatorKind where
  | AffineBasedEstimator
  | HomographyBasedEstimator
deriving DecidableEq, Repr

/-- The bundle adjuster classes of lines 257-260. -/
inductive AdjusterKind where
  | BundleAdjusterReproj
  | BundleAdjusterRay
  | BundleAdjusterAffinePartial
  | NoBundleAdjuster
deriving DecidableEq, Repr

/-- The warper creator classes of lines 353-360 (build without CUDA). -/
inductive WarperKind where
  | PlaneWarper
  | AffineWarper
  | CylindricalWarper
  | SphericalWarper
deriving DecidableEq, Repr

/-- The object `Ptr<RotationWarper>` returned by `WarperCreator::create`:
`warp` is the call with `INTER_LINEAR, BORDER_REFLECT` on an image, `warpMask`
the call with `INTER_NEAREST, BORDER_CONSTANT` on a mask; both return the
top-left corner and the warped buffer. The matrix arguments are `K` and `R`. -/
structure RotationWarper (α : Type) where
  warp : Mat Point3 → Mat α → Mat α → Point × Mat Point3
  warpMask : Mat Nat → Mat α → Mat α → Point × Mat Nat
  warpRoi : Size → Mat α → Mat α → Rect

/-- The OpenCV and C library routines the program calls. `Features` is
`ImageFeatures` without its `img_idx` field, `Matches` is
`vector<MatchesInfo>`. An estimator or adjuster returns its `bool` result and
the contents of the in-out vector `cameras` after the call. -/
structure Env (α : Type) where
  Features : Type
  Matches : Type
  sqrt : α → α
  cvRound : α → Int
  imread : String → Mat Point3
  resize : Mat Point3 → α → α → Mat Point3
  finder : FinderKind → Mat Point3 → Features
  matcher : MatcherKind → α → List (Features × Nat) → Matches
  estimator : EstimatorKind → List (Features × Nat) → Matches → Bool × List (CameraParams α)
  adjuster : AdjusterKind → α → Mat Nat → List (Features × Nat) → Matches →
    List (CameraParams α) → Bool × List (CameraParams α)
  K : CameraParams α → Mat α
  waveCorrect : List (Mat α) → WaveCorrectKind → List (Mat α)
  resultRoi : List Point → List Size → Rect
  warperCreate : WarperKind → α → RotationWarper α

/-- Lines 145-162: the finder selected by `features_type`; `none` is the null
pointer left by the last branch. -/
def makeFinder (features_type : String) : Option FinderKind :=
  if features_type = "surf" then some FinderKind.SurfFeaturesFinder
  else if features_type = "orb" then some FinderKind.OrbFeaturesFinder
  else none

/-- Lines 220-226: the matcher selected by `matcher_type` and `range_width`. -/
def makeMatcher (matcher_type : String) (range_width : Int) : MatcherKind :=
  if matcher_type = "affine" then MatcherKind.AffineBestOf2NearestMatcher
  else if range_width = -1 then MatcherKind.BestOf2NearestMatcher
  else MatcherKind.BestOf2NearestRangeMatcher range_width

/-- Lines 235-239: the estimator selected by `estimator_type`. -/
def makeEstimator (estimator_type : String) : EstimatorKind :=
  if estimator_type = "affine" then EstimatorKind.AffineBasedEstimator
  else EstimatorKind.HomographyBasedEstimator

/-- Lines 256-264: the adjuster selected by `ba_cost_func`; `none` is the null
pointer left by the last branch. -/
def makeAdjuster (ba_cost_func : String) : Option AdjusterKind :=
  if ba_cost_func = "reproj" then some AdjusterKind.BundleAdjusterReproj
  else if ba_cost_func = "ray" then some AdjusterKind.BundleAdjusterRay
  else if ba_cost_func = "affine" then some AdjusterKind.BundleAdjusterAffinePartial
  else if ba_cost_func = "no" then some AdjusterKind.NoBundleAdjuster
  else none

/-- Lines 339-361: the warper creator selected by `warp_type`; `none` is the
null pointer when no branch matches. -/
def makeWarperCreator (warp_type : String) : Option WarperKind :=
  if warp_type = "plane" then some WarperKind.PlaneWarper
  else if warp_type = "affine" then some WarperKind.AffineWarper
  else if warp_type = "cylindrical" then some WarperKind.CylindricalWarper
  else if warp_type = "spherical" then some WarperKind.SphericalWarper
  else none

/-! ## Registration: features, matching, estimation, adjustment (lines 136-276) -/

/-- The variables the feature loop (lines 172-207) assigns. -/
structure FeatureLoopState (α : Type) (F : Type) where
  scales : ScaleState α
  features : List (F × Nat)
  images : List (Mat Point3)
  full_img_sizes : List Size

/-- One iteration of the feature loop (lines 174-206) on image `full_img`; the
loop index `i` is the number of images already processed. -/
def featureLoopBody {α : Type} [LinearOrderedField α] (env : Env α) (cfg : Config α)
    (finder : FinderKind) (st : FeatureLoopState α env.Features) (full_img : Mat Point3) :
    FeatureLoopState α env.Features :=
  let i := st.images.length
  let scales := featureLoopScales env.sqrt cfg.work_megapix cfg.seam_megapix st.scales
    full_img.size.area
  let img :=
    if cfg.work_megapix < 0 then full_img
    else env.resize full_img scales.work_scale scales.work_scale
  let features_i := (env.finder finder img, i)
  let img_seam := env.resize full_img scales.seam_scale scales.seam_scale
  { scales := scales
    features := st.features ++ [features_i]
    images := st.images ++ [img_seam]
    full_img_sizes := st.full_img_sizes ++ [full_img.size] }

/-- The variables of `getStitchingParams` that are live after bundle adjustment
(line 276). -/
structure Registered (α : Type) where
  scales : ScaleState α
  images : List (Mat Point3)
  full_img_sizes : List Size
  cameras : List (CameraParams α)

/-- Lines 136-276: the text written to `cout` by the failure branches, and the
live variables, `none` when a null pointer is called or `ba_refine_mask` is
indexed out of range. A `false` returned by the estimator or by the adjuster
only adds a line to `cout`. The conversion of the rotations to `CV_32F` (lines
248-253) is the identity. -/
def registration {α : Type} [LinearOrderedField α] (env : Env α) (cfg : Config α)
    (InputImage : List (Mat Point3)) : List String × Option (Registered α) :=
  match makeFinder cfg.features_type with
  | none => (["Unknown 2D features type: \x27" ++ cfg.features_type ++ "\x27.\n"], none)
  | some finder =>
    let fl := InputImage.foldl (featureLoopBody env cfg finder)
      ⟨ScaleState.init, [], [], []⟩
    let pairwise_matches :=
      env.matcher (makeMatcher cfg.matcher_type cfg.range_width) cfg.match_conf fl.features
    let est := env.estimator (makeEstimator cfg.estimator_type) fl.features pairwise_matches
    let cout1 := if !est.1 then ["Homography estimation failed.\n"] else []
    match makeAdjuster cfg.ba_cost_func with
    | none =>
      (cout1 ++ ["Unknown bundle adjustment cost function: \x27" ++ cfg.ba_cost_func ++ "\x27.\n"],
        none)
    | some adjuster =>
      match refineMask cfg.ba_refine_mask.toList with
      | none => (cout1, none)
      | some refine_mask =>
        let adj := env.adjuster adjuster cfg.conf_thresh refine_mask fl.features
          pairwise_matches est.2
        let cout2 := if !adj.1 then ["Camera parameters adjusting failed.\n"] else []
        (cout1 ++ cout2, some ⟨fl.scales, fl.images, fl.full_img_sizes, adj.2⟩)

/-! ## Persisting the camera parameters (lines 278-293) -/

/-- What a file written by the program holds: a camera record (the values
streamed into the `FileStorage`), a file opened for writing in which nothing
was stored, or an image written by `imwrite`. -/
inductive FileContent (α : Type) where
  | camRecord (K R t : Mat α) (ppx ppy focal aspect : α)
  | opened
  | image (img : Mat Point3)

/-- The file name `"cam" + camId.str() + ".yml"` with `camId << i+1`. -/
def camFileName (i : Nat) : String := "cam" ++ toString (i + 1) ++ ".yml"

/-- The record streamed into `cam<i+1>.yml` for the camera `c` (lines 285-291). -/
def camRecordOf {α : Type} (K : CameraParams α → Mat α) (c : CameraParams α) : FileContent α :=
  FileContent.camRecord (K c) c.R c.t c.ppx c.ppy c.focal c.aspect

/-- One iteration of the persistence loop (lines 281-292): the file is opened,
then `cameras[i]` is read. The state is the list of files written so far and
whether the loop is still running (`false` after an out-of-range `cameras[i]`). -/
def persistBody {α : Type} (K : CameraParams α → Mat α) (cameras : List (CameraParams α))
    (st : List (String × FileContent α) × Bool) (i : Nat) :
    List (String × FileContent α) × Bool :=
  if st.2 then
    match cameras[i]? with
    | some c => (st.1 ++ [(camFileName i, camRecordOf K c)], true)
    | none => (st.1 ++ [(camFileName i, FileContent.opened)], false)
  else st

/-- The persistence loop `for (int i = 0; i < num_images; ++i)` (lines 279-293). -/
def persistCameras {α : Type} (K : CameraParams α → Mat α) (num_images : Nat)
    (cameras : List (CameraParams α)) : List (String × FileContent α) × Bool :=
  (List.range num_images).foldl (persistBody K cameras) ([], true)

/-! ## Wave correction and the auxiliary warp at seam scale (lines 309-382) -/

/-- Lines 310-318: with `do_wave_correct`, the rotations are cloned, handed to
`waveCorrect` and written back, `cameras[i].R = rmats[i]` for every camera;
`none` when `rmats[i]` is out of range. -/
def waveCorrectStage {α : Type} (env : Env α) (cfg : Config α)
    (cameras : List (CameraParams α)) : Option (List (CameraParams α)) :=
  if cfg.do_wave_correct then
    let rmats := env.waveCorrect (cameras.map fun c => c.R) cfg.wave_correct
    if rmats.length < cameras.length then none
    else some (List.zipWith (fun c r => { c with R := r }) cameras rmats)
  else some cameras

/-- The variables assigned by the auxiliary warp loop (lines 371-382); `warpArgs`
records the arguments `K` and `R` of each `warper->warp` call. -/
structure SeamWarpState (α : Type) where
  corners : List Point
  sizes : List Size
  images_warped : List (Mat Point3)
  masks_warped : List (Mat Nat)
  warpArgs : List (Mat α × Mat α)

/-- The scaled intrinsics of lines 373-377: `K(0,0)`, `K(0,2)`, `K(1,1)` and
`K(1,2)` are multiplied by `swa`. -/
def scaleK {α : Type} [LinearOrderedField α] (K : Mat α) (swa : α) : Mat α :=
  let K1 := K.set 0 0 (K.px 0 0 * swa)
  let K2 := K1.set 0 2 (K1.px 0 2 * swa)
  let K3 := K2.set 1 1 (K2.px 1 1 * swa)
  K3.set 1 2 (K3.px 1 2 * swa)

/-- One iteration of the auxiliary warp loop (lines 373-381) for image `i`, whose
mask (lines 334-335) has the size of `images[i]` and is filled with 255. -/
def seamWarpBody {α : Type} [LinearOrderedField α] (env : Env α) (warper : RotationWarper α)
    (seam_work_aspect : α) (cameras : List (CameraParams α)) (images : List (Mat Point3))
    (st : SeamWarpState α) (i : Nat) : Option (SeamWarpState α) :=
  match cameras[i]?, images[i]? with
  | some cam, some image =>
    let K := scaleK (env.K cam) seam_work_aspect
    let warped := warper.warp image K cam.R
    let mask : Mat Nat := Mat.filled image.rows image.cols 255
    let mask_warped := warper.warpMask mask K cam.R
    some { corners := st.corners ++ [warped.1]
           sizes := st.sizes ++ [warped.2.size]
           images_warped := st.images_warped ++ [warped.2]
           masks_warped := st.masks_warped ++ [mask_warped.2]
           warpArgs := st.warpArgs ++ [(K, cam.R)] }
  | _, _ => none

/-- The variables of `getStitchingParams` that are live when the compose loop
starts (line 403). -/
structure SeamPass (α : Type) where
  warped_image_scale : α
  cameras : List (CameraParams α)
  warper_creator : WarperKind
  seam : SeamWarpState α

/-- Lines 295-389: median focal length, wave correction, warper creation and the
auxiliary warp loop. The result is the text written to `cout` and the live
variables, `none` when an index is out of range or a null pointer is called. -/
def seamPass {α : Type} [LinearOrderedField α] (env : Env α) (cfg : Config α)
    (num_images : Nat) (reg : Registered α) : List String × Option (SeamPass α) :=
  match medianFocal (reg.cameras.map fun c => c.focal) with
  | none => ([], none)
  | some warped_image_scale =>
    match waveCorrectStage env cfg reg.cameras with
    | none => ([], none)
    | some cameras =>
      match makeWarperCreator cfg.warp_type with
      | none => (["Can\x27t create the following warper \x27" ++ cfg.warp_type ++ "\x27\n"], none)
      | some warper_creator =>
        let warper := env.warperCreate warper_creator
          (warped_image_scale * reg.scales.seam_work_aspect)
        match (List.range num_images).foldlM
            (seamWarpBody env warper reg.scales.seam_work_aspect cameras reg.images)
            ⟨[], [], [], [], []⟩ with
        | none => ([], none)
        | some seam => ([], some ⟨warped_image_scale, cameras, warper_creator, seam⟩)

/-! ## The compositor (lines 395-484) -/

/-- The bounding rectangle in the words of the specification (sections 4.8 and
8): the minimal rectangle covering all (corner, corner + size) pairs. Its
top-left corner is the least corner coordinate, its bottom-right corner the
greatest `corner + size` coordinate; for no image at all it is empty. The
theorems compare the OpenCV routine `resultRoi`, a parameter of the program,
with it. -/
def boundingRect (corners : List Point) (sizes : List Size) : Rect :=
  match corners, sizes with
  | c :: cs, s :: ss =>
    let tl : Point := (List.zip cs ss).foldl
      (fun tl p => ⟨min tl.x p.1.x, min tl.y p.1.y⟩) c
    let br : Point := (List.zip cs ss).foldl
      (fun br p => ⟨max br.x (p.1.x + p.2.width), max br.y (p.1.y + p.2.height)⟩)
      ⟨c.x + s.width, c.y + s.height⟩
    Rect.ofCorners tl br
  | _, _ => ⟨0, 0, 0, 0⟩

/-- The variables the compose loop (lines 403-481) reads and assigns;
`dst_rois` records the rectangle `dst_roi` of each iteration and `warpArgs` the
arguments `K` and `R` of each `warper->warp` call of line 454. -/
structure ComposeState (α : Type) where
  is_compose_scale_set : Bool
  compose_scale : α
  compose_work_aspect : α
  warped_image_scale : α
  warper : RotationWarper α
  cameras : List (CameraParams α)
  corners : List Point
  sizes : List Size
  transformedImages : List (Mat Point3)
  transformedImagesMask : List (Mat Nat)
  dst_rois : List Rect
  warpArgs : List (Mat α × Mat α)

/-- Lines 424-426: the intrinsics of one camera rescaled by
`compose_work_aspect`. -/
def composeCamera {α : Type} [LinearOrderedField α] (st : ComposeState α)
    (cam : CameraParams α) : CameraParams α :=
  { cam with focal := cam.focal * st.compose_work_aspect
             ppx := cam.ppx * st.compose_work_aspect
             ppy := cam.ppy * st.compose_work_aspect }

/-- Lines 429-438: the rectangle `roi` that `warper->warpRoi` returns for a
camera (before rescaling: `cam`) whose full image has size `full_size`. -/
def composeRoi {α : Type} [LinearOrderedField α] (env : Env α) (st : ComposeState α)
    (cam : CameraParams α) (full_size : Size) : Rect :=
  let sz : Size :=
    if |st.compose_scale - 1| > 1 / 10 then
      ⟨env.cvRound ((full_size.width : α) * st.compose_scale),
       env.cvRound ((full_size.height : α) * st.compose_scale)⟩
    else full_size
  st.warper.warpRoi sz (env.K (composeCamera st cam)) (composeCamera st cam).R

/-- One iteration of the update loop of lines 421-441 for camera `i`: the
intrinsics are rescaled, then corner and size are overwritten from `warpRoi`. -/
def composeUpdateBody {α : Type} [LinearOrderedField α] (env : Env α)
    (full_img_sizes : List Size) (st : ComposeState α) (i : Nat) : Option (ComposeState α) :=
  match st.cameras[i]?, full_img_sizes[i]? with
  | some cam, some full_size =>
    let roi := composeRoi env st cam full_size
    if i < st.corners.length ∧ i < st.sizes.length then
      some { st with cameras := st.cameras.set i (composeCamera st cam)
                     corners := st.corners.set i roi.tl
                     sizes := st.sizes.set i roi.size }
    else none
  | _, _ => none

/-- Lines 409-418 of the first-touch block: compose scale, relative scale,
rescaled `warped_image_scale` and the new warper. -/
def composeScales {α : Type} [LinearOrderedField α] (env : Env α) (cfg : Config α)
    (warper_creator : WarperKind) (work_scale : α) (st : ComposeState α)
    (full_img : Mat Point3) : ComposeState α :=
  let compose_scale :=
    if cfg.compose_megapix > 0 then
      scaleFormula env.sqrt cfg.compose_megapix full_img.size.area
    else st.compose_scale
  let compose_work_aspect := compose_scale / work_scale
  let warped_image_scale := st.warped_image_scale * compose_work_aspect
  let warper := env.warperCreate warper_creator warped_image_scale
  { st with is_compose_scale_set := true
            compose_scale := compose_scale
            compose_work_aspect := compose_work_aspect
            warped_image_scale := warped_image_scale
            warper := warper }

/-- The first-touch block of lines 409-441, run when `is_compose_scale_set` is
false: the scale assignments, then the update loop over all cameras. -/
def composeFirstTouch {α : Type} [LinearOrderedField α] (env : Env α) (cfg : Config α)
    (warper_creator : WarperKind) (work_scale : α) (num_images : Nat)
    (full_img_sizes : List Size) (st : ComposeState α) (full_img : Mat Point3) :
    Option (ComposeState α) :=
  (List.range num_images).foldlM (composeUpdateBody env full_img_sizes)
    (composeScales env cfg warper_creator work_scale st full_img)

/-- Lines 443-480 of one iteration of the compose loop for image `img_idx`:
the image and its mask are warped, blank buffers of the size of
`resultRoi(corners, sizes)` are created and `getWarpedRegisteredImage` fills
them. -/
def composeImage {α : Type} [LinearOrderedField α] (env : Env α) (st : ComposeState α)
    (img_idx : Nat) (full_img : Mat Point3) : Option (ComposeState α) :=
  let img :=
    if |st.compose_scale - 1| > 1 / 10 then env.resize full_img st.compose_scale st.compose_scale
    else full_img
  match st.cameras[img_idx]?, st.corners[img_idx]? with
  | some cam, some corner =>
    let K := env.K cam
    let img_warped := (st.warper.warp img K cam.R).2
    let mask : Mat Nat := Mat.filled img.rows img.cols 255
    let mask_warped := (st.warper.warpMask mask K cam.R).2
    let dst_roi := env.resultRoi st.corners st.sizes
    if dst_roi.width < 0 ∨ dst_roi.height < 0 then none
    else
      let dst_ : Mat Point3 := Mat.filled dst_roi.height.toNat dst_roi.width.toNat Point3.zero
      let dst_mask_ : Mat Nat := Mat.filled dst_roi.height.toNat dst_roi.width.toNat 0
      match getWarpedRegisteredImage img_warped mask_warped corner dst_roi dst_mask_ dst_ with
      | none => none
      | some written =>
        some { st with transformedImages := st.transformedImages ++ [written.2]
                       transformedImagesMask := st.transformedImagesMask ++ [written.1]
                       dst_rois := st.dst_rois ++ [dst_roi]
                       warpArgs := st.warpArgs ++ [(K, cam.R)] }
  | _, _ => none

/-- One iteration of the compose loop (lines 405-480) for image `img_idx`. -/
def composeBody {α : Type} [LinearOrderedField α] (env : Env α) (cfg : Config α)
    (warper_creator : WarperKind) (work_scale : α) (InputImage : List (Mat Point3))
    (full_img_sizes : List Size) (st : ComposeState α) (img_idx : Nat) :
    Option (ComposeState α) :=
  match InputImage[img_idx]? with
  | none => none
  | some full_img =>
    let st1 :=
      if !st.is_compose_scale_set then
        composeFirstTouch env cfg warper_creator work_scale InputImage.length full_img_sizes
          st full_img
      else some st
    st1.bind fun s => composeImage env s img_idx full_img

/-- The state at line 403, before the compose loop: `compose_scale` and
`compose_work_aspect` are 1, the warper is the one of the auxiliary pass, corners
and sizes are those of the auxiliary pass. -/
def composeInit {α : Type} [LinearOrderedField α] (env : Env α) (reg : Registered α)
    (sp : SeamPass α) : ComposeState α where
  is_compose_scale_set := false
  compose_scale := 1
  compose_work_aspect := 1
  warped_image_scale := sp.warped_image_scale
  warper := env.warperCreate sp.warper_creator (sp.warped_image_scale * reg.scales.seam_work_aspect)
  cameras := sp.cameras
  corners := sp.seam.corners
  sizes := sp.seam.sizes
  transformedImages := []
  transformedImagesMask := []
  dst_rois := []
  warpArgs := []

/-- The compose loop `for (int img_idx = 0; img_idx < num_images; ++img_idx)`
(lines 403-481). -/
def composeLoop {α : Type} [LinearOrderedField α] (env : Env α) (cfg : Config α)
    (InputImage : List (Mat Point3)) (reg : Registered α) (sp : SeamPass α) :
    Option (ComposeState α) :=
  (List.range InputImage.length).foldlM
    (composeBody env cfg sp.warper_creator reg.scales.work_scale InputImage reg.full_img_sizes)
    (composeInit env reg sp)

/-! ## The function `getStitchingParams` (lines 131-485) and `main` -/

/-- What a run of `getStitchingParams` leaves behind: the text written to
`cout` by the failure branches, the files written, the variables at the start
of the compose loop and the final variables, each `none` when the run stopped
before, at an out-of-range access or a null pointer. The returned vector is
`transformedImages` of the final variables. -/
structure Outcome (α : Type) where
  cout : List String
  files : List (String × FileContent α)
  seam : Option (SeamPass α)
  result : Option (ComposeState α)

/-- The function `getStitchingParams` (lines 131-485). -/
def getStitchingParams {α : Type} [LinearOrderedField α] (env : Env α) (cfg : Config α)
    (InputImage : List (Mat Point3)) : Outcome α :=
  let num_images := InputImage.length
  match registration env cfg InputImage with
  | (cout, none) => ⟨cout, [], none, none⟩
  | (cout, some reg) =>
    let persisted := persistCameras env.K num_images reg.cameras
    if !persisted.2 then ⟨cout, persisted.1, none, none⟩
    else
      match seamPass env cfg num_images reg with
      | (cout1, none) => ⟨cout ++ cout1, persisted.1, none, none⟩
      | (cout1, some sp) =>
        ⟨cout ++ cout1, persisted.1, some sp, composeLoop env cfg InputImage reg sp⟩

/-- What a run of `main` leaves behind: the exit status (`none` when the run
stopped at an out-of-range access or a null pointer), the text written to
`cout`, the files written, and whether `getStitchingParams` was called. -/
structure MainOutcome (α : Type) where
  status : Option Int
  cout : List String
  files : List (String × FileContent α)
  calledGetStitchingParams : Bool

/-- The file name `"cam" + camId.str() + "_warped.jpg"` with
`camId << img_idx + 1`. -/
def warpedFileName (img_idx : Nat) : String := "cam" ++ toString (img_idx + 1) ++ "_warped.jpg"

/-- One iteration of the output loop of `main` (lines 534-539): `outputImages[img_idx]`
is read, then written with `imwrite`. The state is the list of files written
so far and whether the loop is still running (`false` after an out-of-range
`outputImages[img_idx]`). -/
def writeWarped {α : Type} (outputImages : List (Mat Point3))
    (st : List (String × FileContent α) × Bool) (img_idx : Nat) :
    List (String × FileContent α) × Bool :=
  if st.2 then
    match outputImages[img_idx]? with
    | some stitchedImage =>
      (st.1 ++ [(warpedFileName img_idx, FileContent.image stitchedImage)], true)
    | none => (st.1, false)
  else st

/-- The function `main` (lines 487-543); `argv` holds the program name and the
image names. -/
def main {α : Type} [LinearOrderedField α] (env : Env α) (cfg : Config α)
    (argv : List String) : MainOutcome α :=
  let inputImages := (argv.drop 1).map env.imread
  let num_images := inputImages.length
  if num_images < 2 then
    ⟨some (-1), ["Need more images\n"], [], false⟩
  else
    let out := getStitchingParams env cfg inputImages
    match out.result with
    | none => ⟨none, out.cout, out.files, true⟩
    | some final =>
      let written := (List.range num_images).foldl (writeWarped final.transformedImages)
        (out.files, true)
      ⟨if written.2 then some 0 else none, out.cout, written.1, true⟩

/-- The rotation stored in a camera record. -/
def FileContent.rotation? {α : Type} : FileContent α → Option (Mat α)
  | FileContent.camRecord _ R _ _ _ _ _ => some R
  | _ => none

/-- The environment `env` in which the estimator returns the `bool` value
`estimated` and the adjuster the `bool` value `adjusted`, the vector `cameras`
being left as in `env`. -/
def Env.withResults {α : Type} (env : Env α) (estimated adjusted : Bool) : Env α :=
  { env with
    estimator := fun kind features pairwise_matches =>
      (estimated, (env.estimator kind features pairwise_matches).2)
    adjuster := fun kind conf_thresh refine_mask features pairwise_matches cameras =>
      (adjusted, (env.adjuster kind conf_thresh refine_mask features pairwise_matches cameras).2) }

/-! ## A concrete environment over the rationals

Stand-ins for the OpenCV routines, used to run the program on literal inputs. -/

/-- A stand-in for `sqrt` on the rationals: zero at non-positive arguments,
else six Heron steps starting from 1. -/
def heronSqrt (x : ℚ) : ℚ :=
  if x ≤ 0 then 0 else (fun y => (y + x / y) / 2)^[6] 1

/-- A stand-in for `cvRound`: the nearest integer, halves to the even one. -/
def roundHalfEven (x : ℚ) : Int :=
  let f := ⌊x⌋
  if x - f < 1 / 2 then f
  else if 1 / 2 < x - f then f + 1
  else if f % 2 = 0 then f else f + 1

/-- The 3 by 3 identity matrix. -/
def identity3 : Mat ℚ := ⟨3, 3, fun i j => if i = j then 1 else 0⟩

/-- The rotation by a quarter turn about the third axis. -/
def quarterTurn : Mat ℚ :=
  ⟨3, 3, fun i j =>
    if i = 0 ∧ j = 1 then -1 else if i = 1 ∧ j = 0 then 1 else if i = 2 ∧ j = 2 then 1 else 0⟩

/-- The product of two 3 by 3 matrices. -/
def mul3 (A B : Mat ℚ) : Mat ℚ :=
  ⟨3, 3, fun i j => A.px i 0 * B.px 0 j + A.px i 1 * B.px 1 j + A.px i 2 * B.px 2 j⟩

/-- A stand-in warper: the image is shifted, unchanged, to the point whose
coordinates are the integer parts of `K(0,2)` and `K(1,2)`. -/
def shiftWarper : RotationWarper ℚ where
  warp := fun img K _ => (⟨⌊K.px 0 2⌋, ⌊K.px 1 2⌋⟩, img)
  warpMask := fun mask K _ => (⟨⌊K.px 0 2⌋, ⌊K.px 1 2⌋⟩, mask)
  warpRoi := fun sz K _ => ⟨⌊K.px 0 2⌋, ⌊K.px 1 2⌋, sz.width, sz.height⟩

/-- A concrete environment: images of 2 rows by 3 columns are read, the
estimator gives camera number `i` the principal point `(4 * i, i)` and the
identity rotation, the adjuster succeeds and leaves the cameras unchanged,
`waveCorrect` turns every rotation by a quarter turn, `resultRoi` is the
bounding rectangle. -/
def demoEnv : Env ℚ where
  Features := Unit
  Matches := Unit
  sqrt := heronSqrt
  cvRound := roundHalfEven
  imread := fun _ => ⟨2, 3, fun r c => ⟨r, c, 7⟩⟩
  resize := fun img fx fy =>
    ⟨(roundHalfEven (img.rows * fy)).toNat, (roundHalfEven (img.cols * fx)).toNat,
     fun r c => img.px ⌊(r : ℚ) / fy⌋.toNat ⌊(c : ℚ) / fx⌋.toNat⟩
  finder := fun _ _ => ()
  matcher := fun _ _ _ => ()
  estimator := fun _ features _ =>
    (true, features.map fun f =>
      ⟨500, 1, 4 * (f.2 : ℚ), (f.2 : ℚ), identity3, ⟨3, 1, fun _ _ => 0⟩⟩)
  adjuster := fun _ _ _ _ _ cameras => (true, cameras)
  K := fun c =>
    ⟨3, 3, fun i j =>
      if i = 0 ∧ j = 0 then c.focal else if i = 0 ∧ j = 2 then c.ppx
      else if i = 1 ∧ j = 1 then c.focal * c.aspect else if i = 1 ∧ j = 2 then c.ppy
      else if i = 2 ∧ j = 2 then 1 else 0⟩
  waveCorrect := fun rmats _ => rmats.map fun R => mul3 quarterTurn R
  resultRoi := boundingRect
  warperCreate := fun _ _ => shiftWarper

/-- The environment `demoEnv` with a bundle adjuster that reports failure and
leaves the cameras as the estimator set them. -/
def failingAdjusterEnv : Env ℚ := demoEnv.withResults true false

/-- The environment `demoEnv` with an estimator that reports failure. -/
def failingEstimatorEnv : Env ℚ := demoEnv.withResults false true

/-- Two input images of 2 rows by 3 columns. -/
def demoImages : List (Mat Point3) :=
  [⟨2, 3, fun r c => ⟨r, c, 1⟩⟩, ⟨2, 3, fun r c => ⟨r, c, 2⟩⟩]

/-- The file that iteration `i` of the persistence loop writes. -/
def persistedFile {α : Type} (K : CameraParams α → Mat α) (cameras : List (CameraParams α))
    (i : Nat) : String × FileContent α :=
  match cameras[i]? with
  | some c => (camFileName i, camRecordOf K c)
  | none => (camFileName i, FileContent.opened)

/-- A rectangle covers the image placed at corner `c` with size `s`: it contains
the points `c` and `c + s`. -/
def Rect.covers (r : Rect) (c : Point) (s : Size) : Prop :=
  r.x ≤ c.x ∧ r.y ≤ c.y ∧ c.x + s.width ≤ r.x + r.width ∧ c.y + s.height ≤ r.y + r.height

/-- The state of the update loop of lines 421-441 after `k` iterations, started
in state `s0`: cameras, corners and sizes of the cameras `i < k` are the
rescaled camera and the corner and size of its `warpRoi` rectangle; nothing
else has changed. -/
structure UpdatedTo {α : Type} [LinearOrderedField α] (env : Env α) (full_img_sizes : List Size)
    (s0 : ComposeState α) (k : Nat) (s : ComposeState α) : Prop where
  frame : s = { s0 with cameras := s.cameras, corners := s.corners, sizes := s.sizes }
  cameras_length : s.cameras.length = s0.cameras.length
  corners_length : s.corners.length = s0.corners.length
  sizes_length : s.sizes.length = s0.sizes.length
  done : ∀ i, i < k → ∃ cam full_size, s0.cameras[i]? = some cam ∧
    full_img_sizes[i]? = some full_size ∧
    s.cameras[i]? = some (composeCamera s0 cam) ∧
    s.corners[i]? = some (composeRoi env s0 cam full_size).tl ∧
    s.sizes[i]? = some (composeRoi env s0 cam full_size).size
  todo : ∀ i, k ≤ i → s.cameras[i]? = s0.cameras[i]?

/-- The state of the compose loop after `k ≥ 1` iterations, where `s1` is the
state left by the first-touch block: `k` buffers, masks, rectangles and warper
arguments have been appended; nothing else has changed. -/
structure ComposedTo {α : Type} [LinearOrderedField α] (env : Env α) (s1 : ComposeState α)
    (k : Nat) (s : ComposeState α) : Prop where
  frame : s = { s1 with transformedImages := s.transformedImages
                        transformedImagesMask := s.transformedImagesMask
                        dst_rois := s.dst_rois
                        warpArgs := s.warpArgs }
  rois : s.dst_rois = s1.dst_rois ++ List.replicate k (env.resultRoi s1.corners s1.sizes)
  images_length : s.transformedImages.length = s1.transformedImages.length + k
  images_dims : ∀ m ∈ s.transformedImages, m ∈ s1.transformedImages ∨
    (m.rows = (env.resultRoi s1.corners s1.sizes).height.toNat ∧
     m.cols = (env.resultRoi s1.corners s1.sizes).width.toNat)
  args_length : s.warpArgs.length = s1.warpArgs.length + k
  args : ∀ i, i < k → ∃ cam, s1.cameras[i]? = some cam ∧
    s.warpArgs[s1.warpArgs.length + i]? = some (env.K cam, cam.R)

/-- A warped image of 1 row by 2 columns. -/
def stripImage : Mat Point3 := ⟨1, 2, fun _ c => ⟨10, c, 30⟩⟩

/-- A warped mask of 1 row by 2 columns that is set in column 0 only. -/
def leftMask : Mat Nat := ⟨1, 2, fun _ c => if c = 0 then 255 else 0⟩

/-- A warped mask of 1 row by 2 columns that is set in column 1 only. -/
def rightMask : Mat Nat := ⟨1, 2, fun _ c => if c = 1 then 255 else 0⟩

/-- A warped image of 50 rows by 50 columns. -/
def patchImage : Mat Point3 := ⟨50, 50, fun r c => ⟨r, c, 0⟩⟩

/-- A warped mask of 50 rows by 50 columns that is set everywhere. -/
def patchMask : Mat Nat := ⟨50, 50, fun _ _ => 255⟩

/-! # Theorems -/

/-! ## Scale manager -/

theorem stdMin_le_left {α : Type} [LinearOrderedField α] (a b : α) : stdMin a b ≤ a := by
  unfold stdMin; split_ifs with h
  · exact le_of_lt h
  · exact le_refl a

theorem featureLoopScales_fixed {α : Type} [LinearOrderedField α] (sqrt : α → α)
    (wm sm : α) (hw : ¬ wm < 0) (st : ScaleState α)
    (h1 : st.is_work_scale_set = true) (h2 : st.is_seam_scale_set = true) (a : Int) :
    featureLoopScales sqrt wm sm st a = st := by
  simp [featureLoopScales, hw, h1, h2]

theorem foldl_featureLoopScales_fixed {α : Type} [LinearOrderedField α] (sqrt : α → α)
    (wm sm : α) (hw : ¬ wm < 0) (rest : List Int) (st : ScaleState α)
    (h1 : st.is_work_scale_set = true) (h2 : st.is_seam_scale_set = true) :
    rest.foldl (featureLoopScales sqrt wm sm) st = st := by
  induction rest with
  | nil => rfl
  | cons a rest ih => rw [List.foldl_cons, featureLoopScales_fixed sqrt wm sm hw st h1 h2, ih]

theorem featureLoopScales_neg_work {α : Type} [LinearOrderedField α] (sqrt : α → α)
    (wm sm : α) (hw : wm < 0) (st : ScaleState α) (a : Int) :
    (featureLoopScales sqrt wm sm st a).work_scale = 1 := by
  unfold featureLoopScales
  simp only [hw, if_true]
  split_ifs <;> rfl

/-! ## Refinement mask -/

theorem refineStep_eq (s : List Char) (i r c : Nat) (m : Mat Nat) (h : i < s.length) :
    refineStep s i r c m = some (refineStepValue s i r c m) := by
  unfold refineStep strAt refineStepValue
  rw [if_pos h, List.getElem?_eq_getElem h]
  simp

theorem refineStepValue_px (s : List Char) (i r c : Nat) (m : Mat Nat) (a b : Nat) :
    (refineStepValue s i r c m).px a b =
      if s[i]? = some 'x' ∧ a = r ∧ b = c then 1 else m.px a b := by
  unfold refineStepValue
  by_cases h : s[i]? = some 'x'
  · simp [h, Mat.set]
  · simp [h]

theorem refineStepValue_rows (s : List Char) (i r c : Nat) (m : Mat Nat) :
    (refineStepValue s i r c m).rows = m.rows := by
  unfold refineStepValue; split_ifs <;> rfl

theorem refineStepValue_cols (s : List Char) (i r c : Nat) (m : Mat Nat) :
    (refineStepValue s i r c m).cols = m.cols := by
  unfold refineStepValue; split_ifs <;> rfl

theorem refineMask_eq (s : List Char) (hs : s.length = 5) :
    refineMask s = some (refineStepValue s 4 1 2 (refineStepValue s 3 1 1
      (refineStepValue s 2 0 2 (refineStepValue s 1 0 1
        (refineStepValue s 0 0 0 (Mat.filled 3 3 0)))))) := by
  unfold refineMask
  rw [refineStep_eq s 0 0 0 _ (by omega), Option.some_bind,
    refineStep_eq s 1 0 1 _ (by omega), Option.some_bind,
    refineStep_eq s 2 0 2 _ (by omega), Option.some_bind,
    refineStep_eq s 3 1 1 _ (by omega), Option.some_bind,
    refineStep_eq s 4 1 2 _ (by omega)]

/-! ## Placement of one warped image -/

theorem lor_eq_zero_iff (a b : Nat) : a ||| b = 0 ↔ a = 0 ∧ b = 0 := by
  constructor
  · intro h
    have key : ∀ i, a.testBit i = false ∧ b.testBit i = false := by
      intro i
      have := congrArg (fun n => Nat.testBit n i) h
      simpa [Nat.testBit_or] using this
    constructor
    · apply Nat.eq_of_testBit_eq; intro i; simp [(key i).1]
    · apply Nat.eq_of_testBit_eq; intro i; simp [(key i).2]
  · rintro ⟨rfl, rfl⟩; rfl
theorem copyPixel_eq (img : Mat Point3) (mask : Mat Nat) (cx y dy x : Nat)
    (st : Mat Nat × Mat Point3) (hm : x < mask.cols) (h1 : cx + x < st.1.cols)
    (h2 : cx + x < st.2.cols) :
    copyPixel img mask (cx : Int) y dy st x =
      some (st.1.set dy (cx + x) (st.1.px dy (cx + x) ||| mask.px y x),
            if mask.px y x ≠ 0 then st.2.set dy (cx + x) (img.px y x) else st.2) := by
  have hc : ((cx : Int) + (x : Int)).toNat = cx + x := by omega
  have hb1 : (0 : Int) ≤ (cx : Int) + (x : Int) ∧ (cx : Int) + (x : Int) < st.1.cols := by omega
  have hb2 : (0 : Int) ≤ (cx : Int) + (x : Int) ∧ (cx : Int) + (x : Int) < st.2.cols := by omega
  unfold copyPixel
  simp only [hm, if_true, hc, hb1, hb2, and_self]
  by_cases h : mask.px y x = 0
  · simp [h]
  · simp [h]

theorem foldlM_range_succ {β : Type} (f : β → Nat → Option β) (n : Nat) (b : β) :
    (List.range (n + 1)).foldlM f b = ((List.range n).foldlM f b).bind (fun s => f s n) := by
  rw [List.range_succ, List.foldlM_append]
  simp [List.foldlM_cons, List.foldlM_nil]

theorem copyRow_inner (img : Mat Point3) (mask : Mat Nat) (cx y dy : Nat)
    (st : Mat Nat × Mat Point3) (n : Nat) (hm : n ≤ mask.cols) (h1 : cx + n ≤ st.1.cols)
    (h2 : cx + n ≤ st.2.cols) :
    ∃ st1, (List.range n).foldlM (copyPixel img mask (cx : Int) y dy) st = some st1 ∧
      RowDone img mask cx y dy n st st1 := by
  induction n with
  | zero =>
    refine ⟨st, rfl, ⟨rfl, rfl, rfl, rfl, ?_, ?_⟩⟩
    · intro r c; rw [if_neg]; omega
    · intro r c; rw [if_neg]; omega
  | succ n ih =>
    obtain ⟨s, hs, hd⟩ := ih (by omega) (by omega) (by omega)
    rw [foldlM_range_succ, hs, Option.some_bind,
      copyPixel_eq img mask cx y dy n s (by omega) (by rw [hd.cols1]; omega)
        (by rw [hd.cols2]; omega)]
    refine ⟨_, rfl, ⟨?_, ?_, ?_, ?_, ?_, ?_⟩⟩
    · exact hd.rows1
    · exact hd.cols1
    · show (if mask.px y n ≠ 0 then s.2.set dy (cx + n) (img.px y n) else s.2).rows = _
      split_ifs
      · exact hd.rows2
      · exact hd.rows2
    · show (if mask.px y n ≠ 0 then s.2.set dy (cx + n) (img.px y n) else s.2).cols = _
      split_ifs
      · exact hd.cols2
      · exact hd.cols2
    · intro r c
      show (if r = dy ∧ c = cx + n then s.1.px dy (cx + n) ||| mask.px y n else s.1.px r c) = _
      by_cases hrc : r = dy ∧ c = cx + n
      · obtain ⟨hr, hcn⟩ := hrc
        subst hr hcn
        rw [if_pos ⟨rfl, rfl⟩, if_pos (by omega), hd.mask_px, if_neg (by omega)]
        simp
      · rw [if_neg hrc, hd.mask_px]
        by_cases h : r = dy ∧ cx ≤ c ∧ c < cx + n
        · rw [if_pos h, if_pos (by omega)]
        · rw [if_neg h, if_neg (by omega)]
    · intro r c
      by_cases hrc : r = dy ∧ c = cx + n
      · obtain ⟨hr, hcn⟩ := hrc
        subst hr hcn
        by_cases hmk : mask.px y n = 0
        · simp only [hmk, ne_eq, not_true_eq_false, if_false]
          rw [hd.img_px, if_neg (by omega), if_neg]
          simp [hmk]
        · simp only [hmk, ne_eq, not_false_eq_true, if_true]
          rw [if_pos]
          · simp [Mat.set]
          · simp [hmk]
      · have e : (if mask.px y n ≠ 0 then s.2.set dy (cx + n) (img.px y n) else s.2).px r c
            = s.2.px r c := by
          split_ifs
          · show (if r = dy ∧ c = cx + n then _ else _) = _
            rw [if_neg hrc]
          · rfl
        rw [e, hd.img_px]
        by_cases h : r = dy ∧ cx ≤ c ∧ c < cx + n ∧ mask.px y (c - cx) ≠ 0
        · rw [if_pos h, if_pos]
          exact ⟨h.1, h.2.1, by omega, h.2.2.2⟩
        · rw [if_neg h, if_neg]
          rintro ⟨a, b, c', d⟩
          exact h ⟨a, b, by omega, d⟩

theorem copyRow_eq (img : Mat Point3) (mask : Mat Nat) (cx cy y : Nat)
    (st : Mat Nat × Mat Point3) (hy : y < mask.rows) (h1 : cy + y < st.1.rows)
    (h2 : cy + y < st.2.rows) :
    copyRow img mask (cx : Int) (cy : Int) st y =
      (List.range img.cols).foldlM (copyPixel img mask (cx : Int) y (cy + y)) st := by
  have hc : ((cy : Int) + (y : Int)).toNat = cy + y := by omega
  have hb : (0 : Int) ≤ (cy : Int) + (y : Int) ∧ (cy : Int) + (y : Int) < st.2.rows ∧
      y < mask.rows ∧ (cy : Int) + (y : Int) < st.1.rows := by omega
  unfold copyRow
  simp only [hb, and_self, if_true, hc]

theorem copyRows_placed (img : Mat Point3) (mask : Mat Nat) (cx cy : Nat)
    (st : Mat Nat × Mat Point3) (hmc : img.cols ≤ mask.cols)
    (hc1 : cx + img.cols ≤ st.1.cols) (hc2 : cx + img.cols ≤ st.2.cols)
    (k : Nat) (hmr : k ≤ mask.rows) (hr1 : cy + k ≤ st.1.rows) (hr2 : cy + k ≤ st.2.rows) :
    ∃ st1, (List.range k).foldlM (copyRow img mask (cx : Int) (cy : Int)) st = some st1 ∧
      Placed img mask cy cx k st st1 := by
  induction k with
  | zero =>
    refine ⟨st, rfl, ⟨rfl, rfl, rfl, rfl, ?_, ?_⟩⟩
    · intro r c; rw [if_neg]; unfold inFootprint; omega
    · intro r c; rw [if_neg]; unfold inFootprint; omega
  | succ k ih =>
    obtain ⟨s, hs, hd⟩ := ih (by omega) (by omega) (by omega)
    obtain ⟨s1, hs1, hrow⟩ := copyRow_inner img mask cx k (cy + k) s img.cols hmc
      (by rw [hd.cols1]; exact hc1) (by rw [hd.cols2]; exact hc2)
    rw [foldlM_range_succ, hs, Option.some_bind,
      copyRow_eq img mask cx cy k s (by omega) (by rw [hd.rows1]; omega)
        (by rw [hd.rows2]; omega), hs1]
    refine ⟨s1, rfl, ⟨?_, ?_, ?_, ?_, ?_, ?_⟩⟩
    · rw [hrow.rows1, hd.rows1]
    · rw [hrow.cols1, hd.cols1]
    · rw [hrow.rows2, hd.rows2]
    · rw [hrow.cols2, hd.cols2]
    · intro r c
      rw [hrow.mask_px, hd.mask_px]
      unfold inFootprint
      by_cases hn : r = cy + k ∧ cx ≤ c ∧ c < cx + img.cols
      · obtain ⟨hr, hcl, hcu⟩ := hn
        subst hr
        rw [if_pos ⟨rfl, hcl, hcu⟩, if_neg (by omega), if_pos (by omega)]
        simp
      · rw [if_neg hn]
        by_cases ho : cy ≤ r ∧ r < cy + k ∧ cx ≤ c ∧ c < cx + img.cols
        · rw [if_pos ho, if_pos (by omega)]
        · rw [if_neg ho, if_neg (by omega)]
    · intro r c
      rw [hrow.img_px, hd.img_px]
      unfold inFootprint
      by_cases hn : r = cy + k ∧ cx ≤ c ∧ c < cx + img.cols ∧ mask.px k (c - cx) ≠ 0
      · obtain ⟨hr, hcl, hcu, hmk⟩ := hn
        subst hr
        rw [if_pos ⟨rfl, hcl, hcu, hmk⟩, if_pos]
        · simp
        · refine ⟨by omega, ?_⟩
          simpa using hmk
      · rw [if_neg hn]
        by_cases ho : (cy ≤ r ∧ r < cy + k ∧ cx ≤ c ∧ c < cx + img.cols) ∧
            mask.px (r - cy) (c - cx) ≠ 0
        · rw [if_pos ho, if_pos]
          exact ⟨by omega, ho.2⟩
        · rw [if_neg ho, if_neg]
          rintro ⟨⟨a1, a2, a3, a4⟩, b⟩
          by_cases hrk : r = cy + k
          · subst hrk
            apply hn
            refine ⟨rfl, a3, a4, ?_⟩
            simpa using b
          · exact ho ⟨⟨a1, by omega, a3, a4⟩, b⟩

/-- The placement theorem: when the footprint of the image lies inside both
destination buffers and the mask is at least as large as the image,
`getWarpedRegisteredImage` returns, and the returned buffers are described
pixel by pixel. -/
theorem getWarpedRegisteredImage_placed (img : Mat Point3) (mask : Mat Nat) (tl : Point)
    (roi : Rect) (dm : Mat Nat) (d : Mat Point3) (cx cy : Nat)
    (hx : tl.x - roi.x = cx) (hy : tl.y - roi.y = cy)
    (hmr : img.rows ≤ mask.rows) (hmc : img.cols ≤ mask.cols)
    (hr1 : cy + img.rows ≤ dm.rows) (hc1 : cx + img.cols ≤ dm.cols)
    (hr2 : cy + img.rows ≤ d.rows) (hc2 : cx + img.cols ≤ d.cols) :
    ∃ st1, getWarpedRegisteredImage img mask tl roi dm d = some st1 ∧
      Placed img mask cy cx img.rows (dm, d) st1 := by
  unfold getWarpedRegisteredImage
  simp only [hx, hy]
  exact copyRows_placed img mask cx cy (dm, d) hmc hc1 hc2 img.rows hmr hr1 hr2


/-- The destination mask after two placements into a blank mask, pixel by
pixel. -/
theorem two_placements_mask (img1 img2 : Mat Point3) (mask1 mask2 : Mat Nat) (tl1 tl2 : Point)
    (dst_roi : Rect) (H W : Nat) (dst_ : Mat Point3) (hdr : dst_.rows = H) (hdc : dst_.cols = W)
    (cx1 cy1 cx2 cy2 : Nat)
    (hx1 : tl1.x - dst_roi.x = cx1) (hy1 : tl1.y - dst_roi.y = cy1)
    (hx2 : tl2.x - dst_roi.x = cx2) (hy2 : tl2.y - dst_roi.y = cy2)
    (hmr1 : img1.rows ≤ mask1.rows) (hmc1 : img1.cols ≤ mask1.cols)
    (hmr2 : img2.rows ≤ mask2.rows) (hmc2 : img2.cols ≤ mask2.cols)
    (hr1 : cy1 + img1.rows ≤ H) (hc1 : cx1 + img1.cols ≤ W)
    (hr2 : cy2 + img2.rows ≤ H) (hc2 : cx2 + img2.cols ≤ W) :
    ∃ a, (getWarpedRegisteredImage img1 mask1 tl1 dst_roi (Mat.filled H W 0) dst_).bind
        (fun s => getWarpedRegisteredImage img2 mask2 tl2 dst_roi s.1 s.2) = some a ∧
      ∀ r c, a.1.px r c =
        (if inFootprint cy1 cx1 img1.rows img1.cols r c then mask1.px (r - cy1) (c - cx1) else 0)
        ||| (if inFootprint cy2 cx2 img2.rows img2.cols r c then mask2.px (r - cy2) (c - cx2)
             else 0) := by
  obtain ⟨s, hs, hp⟩ := getWarpedRegisteredImage_placed img1 mask1 tl1 dst_roi
    (Mat.filled H W 0) dst_ cx1 cy1 hx1 hy1 hmr1 hmc1 hr1 hc1 (by omega) (by omega)
  have d1 : s.1.rows = H := hp.rows1
  have d2 : s.1.cols = W := hp.cols1
  have d3 : s.2.rows = H := hp.rows2.trans hdr
  have d4 : s.2.cols = W := hp.cols2.trans hdc
  obtain ⟨a, ha, hq⟩ := getWarpedRegisteredImage_placed img2 mask2 tl2 dst_roi
    s.1 s.2 cx2 cy2 hx2 hy2 hmr2 hmc2 (by omega) (by omega) (by omega) (by omega)
  refine ⟨a, ?_, ?_⟩
  · rw [hs, Option.some_bind, ha]
  · intro r c
    rw [hq.mask_px, hp.mask_px]
    simp only [Mat.filled, Nat.zero_or]
    by_cases h2 : inFootprint cy2 cx2 img2.rows img2.cols r c
    · rw [if_pos h2, if_pos h2]
    · rw [if_neg h2, if_neg h2, Nat.or_zero]


/-! ## Loops -/

/-- An invariant of a loop `for (k = 0; k < n; ++k)` that runs to completion
holds of its final state. -/
theorem foldlM_range_invariant {β : Type} (f : β → Nat → Option β) (P : Nat → β → Prop)
    (n : Nat) (b final : β) (h0 : P 0 b)
    (hstep : ∀ k s s1, k < n → P k s → f s k = some s1 → P (k + 1) s1)
    (hrun : (List.range n).foldlM f b = some final) : P n final := by
  induction n generalizing final with
  | zero =>
    simp at hrun
    rw [← hrun]; exact h0
  | succ n ih =>
    rw [foldlM_range_succ] at hrun
    cases hs : (List.range n).foldlM f b with
    | none => rw [hs] at hrun; simp at hrun
    | some s =>
      rw [hs, Option.some_bind] at hrun
      exact hstep n s final (Nat.lt_succ_self n)
        (ih s (fun k s s1 hk => hstep k s s1 (Nat.lt_succ_of_lt hk)) hs) hrun

/-! ## Registration and persistence -/

theorem strAt_isSome (s : List Char) (i : Nat) (h : i ≤ s.length) : ∃ ch, strAt s i = some ch := by
  unfold strAt
  by_cases hlt : i < s.length
  · rw [if_pos hlt, List.getElem?_eq_getElem hlt]; exact ⟨_, rfl⟩
  · rw [if_neg hlt, if_pos (by omega)]; exact ⟨_, rfl⟩

theorem refineStep_isSome (s : List Char) (i r c : Nat) (m : Mat Nat) (h : i ≤ s.length) :
    ∃ m1, refineStep s i r c m = some m1 := by
  obtain ⟨ch, hch⟩ := strAt_isSome s i h
  unfold refineStep
  rw [hch]
  exact ⟨_, rfl⟩

theorem refineMask_isSome (s : List Char) (h : 4 ≤ s.length) : ∃ m, refineMask s = some m := by
  unfold refineMask
  obtain ⟨m0, h0⟩ := refineStep_isSome s 0 0 0 (Mat.filled 3 3 0) (by omega)
  obtain ⟨m1, h1⟩ := refineStep_isSome s 1 0 1 m0 (by omega)
  obtain ⟨m2, h2⟩ := refineStep_isSome s 2 0 2 m1 (by omega)
  obtain ⟨m3, h3⟩ := refineStep_isSome s 3 1 1 m2 (by omega)
  obtain ⟨m4, h4⟩ := refineStep_isSome s 4 1 2 m3 (by omega)
  rw [h0, Option.some_bind, h1, Option.some_bind, h2, Option.some_bind, h3, Option.some_bind, h4]
  exact ⟨m4, rfl⟩

/-- Registration reaches line 276 whenever the finder and the adjuster exist
and the mask string can be indexed, whatever the estimator and the adjuster
return. -/
theorem registration_isSome {α : Type} [LinearOrderedField α] (env : Env α) (cfg : Config α)
    (InputImage : List (Mat Point3)) (hf : (makeFinder cfg.features_type).isSome = true)
    (ha : (makeAdjuster cfg.ba_cost_func).isSome = true)
    (hm : 4 ≤ cfg.ba_refine_mask.length) :
    ∃ reg, (registration env cfg InputImage).2 = some reg := by
  obtain ⟨fk, hfk⟩ := Option.isSome_iff_exists.mp hf
  obtain ⟨ak, hak⟩ := Option.isSome_iff_exists.mp ha
  obtain ⟨m, hmk⟩ := refineMask_isSome cfg.ba_refine_mask.toList (by simpa using hm)
  unfold registration
  simp only [hfk, hak, hmk]
  exact ⟨_, rfl⟩

/-- The files the persistence loop has written after `n` iterations, when
`cameras` has at least `n` entries. -/
theorem persistCameras_eq {α : Type} (K : CameraParams α → Mat α) (cameras : List (CameraParams α))
    (n : Nat) (h : n ≤ cameras.length) :
    persistCameras K n cameras = ((List.range n).map (persistedFile K cameras), true) := by
  unfold persistCameras
  induction n with
  | zero => simp
  | succ n ih =>
    have hlt : n < cameras.length := by omega
    rw [List.range_succ, List.foldl_append, ih (by omega)]
    simp only [List.foldl_cons, List.foldl_nil, persistBody, if_true,
      List.getElem?_eq_getElem hlt, List.map_append, List.map_cons, List.map_nil, persistedFile]

/-- Once registration has reached line 276, the files that
`getStitchingParams` writes are those of the persistence loop. -/
theorem getStitchingParams_files {α : Type} [LinearOrderedField α] (env : Env α) (cfg : Config α)
    (InputImage : List (Mat Point3)) (reg : Registered α)
    (hreg : (registration env cfg InputImage).2 = some reg) :
    (getStitchingParams env cfg InputImage).files
      = (persistCameras env.K InputImage.length reg.cameras).1 := by
  unfold getStitchingParams
  rcases hr : registration env cfg InputImage with ⟨cout, r⟩
  rw [hr] at hreg
  simp only at hreg
  subst hreg
  simp only
  split_ifs
  · rfl
  · rcases seamPass env cfg InputImage.length reg with ⟨c1, _ | sp⟩ <;> rfl


theorem registration_withResults {α : Type} [LinearOrderedField α] (env : Env α) (cfg : Config α)
    (InputImage : List (Mat Point3)) (b1 b2 : Bool) :
    (registration (env.withResults b1 b2) cfg InputImage).2 = (registration env cfg InputImage).2 := by
  unfold registration
  cases makeFinder cfg.features_type with
  | none => rfl
  | some fk =>
    cases makeAdjuster cfg.ba_cost_func with
    | none => rfl
    | some ak =>
      cases refineMask cfg.ba_refine_mask.toList with
      | none => rfl
      | some m => rfl

/-- The files that `getStitchingParams` writes, in terms of registration and
the persistence loop. -/
theorem getStitchingParams_files_eq {α : Type} [LinearOrderedField α] (env : Env α)
    (cfg : Config α) (InputImage : List (Mat Point3)) :
    (getStitchingParams env cfg InputImage).files =
      match (registration env cfg InputImage).2 with
      | none => []
      | some reg => (persistCameras env.K InputImage.length reg.cameras).1 := by
  cases hr : (registration env cfg InputImage).2 with
  | some reg => exact getStitchingParams_files env cfg InputImage reg hr
  | none =>
    unfold getStitchingParams
    rcases hr2 : registration env cfg InputImage with ⟨cout, r⟩
    rw [hr2] at hr
    simp only at hr
    subst hr
    rfl


/-! ## The bounding rectangle -/

theorem foldl_min_x (zs : List (Point × Size)) (c : Point) (z : Int) :
    z ≤ (zs.foldl (fun tl p => (⟨min tl.x p.1.x, min tl.y p.1.y⟩ : Point)) c).x ↔
      z ≤ c.x ∧ ∀ p ∈ zs, z ≤ p.1.x := by
  induction zs generalizing c with
  | nil => simp
  | cons p zs ih =>
    rw [List.foldl_cons, ih]
    simp only [le_min_iff, List.mem_cons, forall_eq_or_imp]
    tauto

theorem foldl_min_y (zs : List (Point × Size)) (c : Point) (z : Int) :
    z ≤ (zs.foldl (fun tl p => (⟨min tl.x p.1.x, min tl.y p.1.y⟩ : Point)) c).y ↔
      z ≤ c.y ∧ ∀ p ∈ zs, z ≤ p.1.y := by
  induction zs generalizing c with
  | nil => simp
  | cons p zs ih =>
    rw [List.foldl_cons, ih]
    simp only [le_min_iff, List.mem_cons, forall_eq_or_imp]
    tauto

theorem foldl_max_x (zs : List (Point × Size)) (c : Point) (z : Int) :
    (zs.foldl (fun br p =>
        (⟨max br.x (p.1.x + p.2.width), max br.y (p.1.y + p.2.height)⟩ : Point)) c).x ≤ z ↔
      c.x ≤ z ∧ ∀ p ∈ zs, p.1.x + p.2.width ≤ z := by
  induction zs generalizing c with
  | nil => simp
  | cons p zs ih =>
    rw [List.foldl_cons, ih]
    simp only [max_le_iff, List.mem_cons, forall_eq_or_imp]
    tauto

theorem foldl_max_y (zs : List (Point × Size)) (c : Point) (z : Int) :
    (zs.foldl (fun br p =>
        (⟨max br.x (p.1.x + p.2.width), max br.y (p.1.y + p.2.height)⟩ : Point)) c).y ≤ z ↔
      c.y ≤ z ∧ ∀ p ∈ zs, p.1.y + p.2.height ≤ z := by
  induction zs generalizing c with
  | nil => simp
  | cons p zs ih =>
    rw [List.foldl_cons, ih]
    simp only [max_le_iff, List.mem_cons, forall_eq_or_imp]
    tauto

theorem mem_zip_iff (cs : List Point) (ss : List Size) (p : Point × Size) :
    p ∈ List.zip cs ss ↔ ∃ i : Nat, cs[i]? = some p.1 ∧ ss[i]? = some p.2 := by
  rw [List.mem_iff_getElem?]
  constructor
  · rintro ⟨i, hi⟩
    refine ⟨i, ?_⟩
    rw [List.getElem?_zip_eq_some] at hi
    exact hi
  · rintro ⟨i, hi⟩
    exact ⟨i, List.getElem?_zip_eq_some.mpr hi⟩

theorem ofCorners_right (tl br : Point) :
    (Rect.ofCorners tl br).x + (Rect.ofCorners tl br).width = max tl.x br.x := by
  simp [Rect.ofCorners]

theorem ofCorners_bottom (tl br : Point) :
    (Rect.ofCorners tl br).y + (Rect.ofCorners tl br).height = max tl.y br.y := by
  simp [Rect.ofCorners]

/-- The rectangle `boundingRect` covers every image. -/
theorem boundingRect_covers (corners : List Point) (sizes : List Size) (i : Nat) (c : Point)
    (s : Size) (hc : corners[i]? = some c) (hs : sizes[i]? = some s) :
    (boundingRect corners sizes).covers c s := by
  match corners, sizes, hc, hs with
  | c0 :: cs, s0 :: ss, hc, hs =>
    unfold boundingRect
    simp only
    have hmem : (c = c0 ∧ s = s0) ∨ (c, s) ∈ List.zip cs ss := by
      cases i with
      | zero =>
        left
        simp at hc hs
        exact ⟨hc.symm, hs.symm⟩
      | succ j =>
        right
        rw [mem_zip_iff]
        exact ⟨j, by simpa using hc, by simpa using hs⟩
    have h1 := (foldl_min_x (List.zip cs ss) c0 _).mp (le_refl _)
    have h2 := (foldl_min_y (List.zip cs ss) c0 _).mp (le_refl _)
    have h3 := (foldl_max_x (List.zip cs ss) ⟨c0.x + s0.width, c0.y + s0.height⟩ _).mp (le_refl _)
    have h4 := (foldl_max_y (List.zip cs ss) ⟨c0.x + s0.width, c0.y + s0.height⟩ _).mp (le_refl _)
    unfold Rect.covers
    rw [ofCorners_right, ofCorners_bottom]
    simp only [Rect.ofCorners]
    rcases hmem with ⟨rfl, rfl⟩ | hmem
    · exact ⟨le_trans (min_le_left _ _) h1.1, le_trans (min_le_left _ _) h2.1,
        le_trans h3.1 (le_max_right _ _), le_trans h4.1 (le_max_right _ _)⟩
    · exact ⟨le_trans (min_le_left _ _) (h1.2 _ hmem), le_trans (min_le_left _ _) (h2.2 _ hmem),
        le_trans (h3.2 _ hmem) (le_max_right _ _), le_trans (h4.2 _ hmem) (le_max_right _ _)⟩

/-- The rectangle `boundingRect` is contained in every rectangle that covers every
image, when there is an image and no size is negative. -/
theorem boundingRect_minimal (corners : List Point) (sizes : List Size) (r : Rect)
    (hne : corners ≠ []) (hlen : corners.length = sizes.length)
    (hpos : ∀ s ∈ sizes, 0 ≤ s.width ∧ 0 ≤ s.height)
    (hr : ∀ (i : Nat) c s, corners[i]? = some c → sizes[i]? = some s → r.covers c s) :
    r.x ≤ (boundingRect corners sizes).x ∧ r.y ≤ (boundingRect corners sizes).y ∧
    (boundingRect corners sizes).x + (boundingRect corners sizes).width ≤ r.x + r.width ∧
    (boundingRect corners sizes).y + (boundingRect corners sizes).height ≤ r.y + r.height := by
  match corners, sizes, hne, hlen, hpos, hr with
  | c0 :: cs, s0 :: ss, _, _, hpos, hr =>
    unfold boundingRect
    simp only
    rw [ofCorners_right, ofCorners_bottom]
    simp only [Rect.ofCorners]
    have h0 := hr 0 c0 s0 (by simp) (by simp)
    have hp0 := hpos s0 (List.mem_cons_self _ _)
    have hz : ∀ p ∈ List.zip cs ss, r.covers p.1 p.2 := by
      intro p hp
      obtain ⟨j, hj1, hj2⟩ := (mem_zip_iff cs ss p).mp hp
      exact hr (j + 1) p.1 p.2 (by simpa using hj1) (by simpa using hj2)
    unfold Rect.covers at h0 hz
    have t1 := (foldl_min_x (List.zip cs ss) c0 r.x).mpr ⟨h0.1, fun p hp => (hz p hp).1⟩
    have t2 := (foldl_min_y (List.zip cs ss) c0 r.y).mpr ⟨h0.2.1, fun p hp => (hz p hp).2.1⟩
    have t3 := (foldl_max_x (List.zip cs ss) ⟨c0.x + s0.width, c0.y + s0.height⟩
      (r.x + r.width)).mpr ⟨h0.2.2.1, fun p hp => (hz p hp).2.2.1⟩
    have t4 := (foldl_max_y (List.zip cs ss) ⟨c0.x + s0.width, c0.y + s0.height⟩
      (r.y + r.height)).mpr ⟨h0.2.2.2, fun p hp => (hz p hp).2.2.2⟩
    have u1 := (foldl_min_x (List.zip cs ss) c0 _).mp (le_refl _)
    have u2 := (foldl_min_y (List.zip cs ss) c0 _).mp (le_refl _)
    have u3 := (foldl_max_x (List.zip cs ss) ⟨c0.x + s0.width, c0.y + s0.height⟩ _).mp (le_refl _)
    have u4 := (foldl_max_y (List.zip cs ss) ⟨c0.x + s0.width, c0.y + s0.height⟩ _).mp (le_refl _)
    have v1 := u1.1
    have v2 := u2.1
    have v3 := u3.1
    have v4 := u4.1
    simp only at v3 v4
    refine ⟨le_min t1 ?_, le_min t2 ?_, max_le ?_ t3, max_le ?_ t4⟩
    · omega
    · omega
    · omega
    · omega


/-! ## The compose loop -/

theorem copyPixel_dims (img : Mat Point3) (mask : Mat Nat) (corner_x : Int) (y dy x : Nat)
    (st st1 : Mat Nat × Mat Point3) (h : copyPixel img mask corner_x y dy st x = some st1) :
    st1.1.rows = st.1.rows ∧ st1.1.cols = st.1.cols ∧
    st1.2.rows = st.2.rows ∧ st1.2.cols = st.2.cols := by
  unfold copyPixel at h
  simp only at h
  split_ifs at h with h1 h2 h3 h4 h5 h6
  all_goals first
    | (simp only [Option.some_bind, Option.none_bind, Option.some.injEq] at h
       rw [← h]
       exact ⟨rfl, rfl, rfl, rfl⟩)
    | simp at h

theorem copyRow_dims (img : Mat Point3) (mask : Mat Nat) (corner_x corner_y : Int) (y : Nat)
    (st st1 : Mat Nat × Mat Point3) (h : copyRow img mask corner_x corner_y st y = some st1) :
    st1.1.rows = st.1.rows ∧ st1.1.cols = st.1.cols ∧
    st1.2.rows = st.2.rows ∧ st1.2.cols = st.2.cols := by
  unfold copyRow at h
  simp only at h
  split_ifs at h
  exact foldlM_range_invariant _
    (fun _ s => s.1.rows = st.1.rows ∧ s.1.cols = st.1.cols ∧
      s.2.rows = st.2.rows ∧ s.2.cols = st.2.cols) img.cols st st1 ⟨rfl, rfl, rfl, rfl⟩
    (fun k s s1 _ hP hs => by
      obtain ⟨a, b, c, d⟩ := copyPixel_dims img mask corner_x y _ k s s1 hs
      exact ⟨a.trans hP.1, b.trans hP.2.1, c.trans hP.2.2.1, d.trans hP.2.2.2⟩) h

/-- The buffers that `getWarpedRegisteredImage` returns have the dimensions of
the buffers it was given. -/
theorem getWarpedRegisteredImage_dims (img : Mat Point3) (mask : Mat Nat) (tl : Point)
    (roi : Rect) (dm : Mat Nat) (d : Mat Point3) (st1 : Mat Nat × Mat Point3)
    (h : getWarpedRegisteredImage img mask tl roi dm d = some st1) :
    st1.1.rows = dm.rows ∧ st1.1.cols = dm.cols ∧ st1.2.rows = d.rows ∧ st1.2.cols = d.cols := by
  unfold getWarpedRegisteredImage at h
  exact foldlM_range_invariant _
    (fun _ s => s.1.rows = dm.rows ∧ s.1.cols = dm.cols ∧ s.2.rows = d.rows ∧ s.2.cols = d.cols)
    img.rows (dm, d) st1 ⟨rfl, rfl, rfl, rfl⟩
    (fun k s s1 _ hP hs => by
      obtain ⟨a, b, c, e⟩ := copyRow_dims img mask _ _ k s s1 hs
      exact ⟨a.trans hP.1, b.trans hP.2.1, c.trans hP.2.2.1, e.trans hP.2.2.2⟩) h

/-- What one call of `composeImage` changes: one buffer, one mask, one rectangle
and one pair of warper arguments are appended. -/
theorem composeImage_eq {α : Type} [LinearOrderedField α] (env : Env α) (s s1 : ComposeState α)
    (img_idx : Nat) (full_img : Mat Point3) (h : composeImage env s img_idx full_img = some s1) :
    ∃ cam m mm, s.cameras[img_idx]? = some cam ∧
      m.rows = (env.resultRoi s.corners s.sizes).height.toNat ∧
      m.cols = (env.resultRoi s.corners s.sizes).width.toNat ∧
      s1 = { s with transformedImages := s.transformedImages ++ [m]
                    transformedImagesMask := s.transformedImagesMask ++ [mm]
                    dst_rois := s.dst_rois ++ [env.resultRoi s.corners s.sizes]
                    warpArgs := s.warpArgs ++ [(env.K cam, cam.R)] } := by
  unfold composeImage at h
  simp only at h
  cases hcam : s.cameras[img_idx]? with
  | none => rw [hcam] at h; simp at h
  | some cam =>
    cases hcor : s.corners[img_idx]? with
    | none => rw [hcam, hcor] at h; simp at h
    | some corner =>
      rw [hcam, hcor] at h
      simp only at h
      split_ifs at h
      all_goals
        split at h
        · simp at h
        · rename_i written hw
          obtain ⟨_, _, d3, d4⟩ := getWarpedRegisteredImage_dims _ _ _ _ _ _ _ hw
          simp only [Option.some.injEq] at h
          exact ⟨cam, written.2, written.1, rfl, d3, d4, h.symm⟩


theorem composeUpdateBody_step {α : Type} [LinearOrderedField α] (env : Env α)
    (full_img_sizes : List Size) (s0 s s1 : ComposeState α) (k : Nat)
    (hP : UpdatedTo env full_img_sizes s0 k s)
    (h : composeUpdateBody env full_img_sizes s k = some s1) :
    UpdatedTo env full_img_sizes s0 (k + 1) s1 := by
  have hfr := hP.frame
  unfold composeUpdateBody at h
  cases hcam : s.cameras[k]? with
  | none => rw [hcam] at h; simp at h
  | some cam =>
    cases hfs : full_img_sizes[k]? with
    | none => rw [hcam, hfs] at h; simp at h
    | some full_size =>
      rw [hcam, hfs] at h
      simp only at h
      split_ifs at h with hlen
      simp only [Option.some.injEq] at h
      have hcam0 : s0.cameras[k]? = some cam := by rw [← hP.todo k (le_refl k)]; exact hcam
      have e1 : composeCamera s cam = composeCamera s0 cam := by
        rw [hfr]; rfl
      have e2 : composeRoi env s cam full_size = composeRoi env s0 cam full_size := by
        rw [hfr]; rfl
      rw [e1, e2] at h
      subst h
      refine ⟨?_, ?_, ?_, ?_, ?_, ?_⟩
      · simp only
        rw [hfr]
      · simp only [List.length_set]; exact hP.cameras_length
      · simp only [List.length_set]; exact hP.corners_length
      · simp only [List.length_set]; exact hP.sizes_length
      · intro i hi
        by_cases hik : i = k
        · subst hik
          have hc : i < s.cameras.length := by
            rcases Nat.lt_or_ge i s.cameras.length with h | h
            · exact h
            · rw [List.getElem?_eq_none h] at hcam; simp at hcam
          refine ⟨cam, full_size, hcam0, hfs, ?_, ?_, ?_⟩
          · simp only [List.getElem?_set_self hc]
          · simp only [List.getElem?_set_self hlen.1]
          · simp only [List.getElem?_set_self hlen.2]
        · obtain ⟨cam', fs', a, b, c, d, e⟩ := hP.done i (by omega)
          refine ⟨cam', fs', a, b, ?_, ?_, ?_⟩
          · simp only [List.getElem?_set_ne (Ne.symm hik)]; exact c
          · simp only [List.getElem?_set_ne (Ne.symm hik)]; exact d
          · simp only [List.getElem?_set_ne (Ne.symm hik)]; exact e
      · intro i hi
        have hik : k ≠ i := by omega
        simp only [List.getElem?_set_ne hik]
        exact hP.todo i (by omega)

/-- The first-touch block, when it completes, leaves the state `UpdatedTo` all
`num_images` cameras. -/
theorem composeFirstTouch_updated {α : Type} [LinearOrderedField α] (env : Env α)
    (cfg : Config α) (warper_creator : WarperKind) (work_scale : α) (num_images : Nat)
    (full_img_sizes : List Size) (st s1 : ComposeState α) (full_img : Mat Point3)
    (h : composeFirstTouch env cfg warper_creator work_scale num_images full_img_sizes st
      full_img = some s1) :
    UpdatedTo env full_img_sizes (composeScales env cfg warper_creator work_scale st full_img)
      num_images s1 := by
  unfold composeFirstTouch at h
  exact foldlM_range_invariant _
    (UpdatedTo env full_img_sizes (composeScales env cfg warper_creator work_scale st full_img))
    num_images _ s1
    ⟨rfl, rfl, rfl, rfl, fun i hi => absurd hi (Nat.not_lt_zero i), fun _ _ => rfl⟩
    (fun k s s2 _ hP hs => composeUpdateBody_step env full_img_sizes _ s s2 k hP hs) h


theorem composeImage_step {α : Type} [LinearOrderedField α] (env : Env α)
    (s1 s s2 : ComposeState α) (k : Nat) (full_img : Mat Point3)
    (hP : ComposedTo env s1 k s) (h : composeImage env s k full_img = some s2) :
    ComposedTo env s1 (k + 1) s2 := by
  obtain ⟨cam, m, mm, hcam, hr, hc, hs2⟩ := composeImage_eq env s s2 k full_img h
  have hfr := hP.frame
  have hcams : s.cameras = s1.cameras := by rw [hfr]
  have hcorners : s.corners = s1.corners := by rw [hfr]
  have hsizes : s.sizes = s1.sizes := by rw [hfr]
  rw [hcorners, hsizes] at hr hc hs2
  rw [hcams] at hcam
  subst hs2
  refine ⟨?_, ?_, ?_, ?_, ?_, ?_⟩
  · simp only
    rw [hfr]
  · simp only
    rw [hP.rois, List.append_assoc, List.replicate_succ', ]
  · simp only [List.length_append, List.length_singleton]
    rw [hP.images_length]; omega
  · intro x hx
    simp only [List.mem_append, List.mem_singleton] at hx
    rcases hx with hx | hx
    · exact hP.images_dims x hx
    · right; rw [hx]; exact ⟨hr, hc⟩
  · simp only [List.length_append, List.length_singleton]
    rw [hP.args_length]; omega
  · intro i hi
    by_cases hik : i = k
    · subst hik
      refine ⟨cam, hcam, ?_⟩
      simp only
      rw [← hP.args_length, List.getElem?_append_right (le_refl _)]
      simp
    · obtain ⟨cam', a, b⟩ := hP.args i (by omega)
      refine ⟨cam', a, ?_⟩
      simp only
      rw [List.getElem?_append_left (by rw [hP.args_length]; omega)]
      exact b

/-- The invariant of the compose loop: before the first iteration the state is
the initial one; after `k ≥ 1` iterations it is `ComposedTo` from the state
`s1` that the first-touch block left in the first iteration. -/
theorem composeLoop_invariant {α : Type} [LinearOrderedField α] (env : Env α) (cfg : Config α)
    (InputImage : List (Mat Point3)) (reg : Registered α) (sp : SeamPass α)
    (final : ComposeState α) (h : composeLoop env cfg InputImage reg sp = some final) :
    (InputImage.length = 0 ∧ final = composeInit env reg sp) ∨
    (0 < InputImage.length ∧ ∃ img0 s1, InputImage[0]? = some img0 ∧
      composeFirstTouch env cfg sp.warper_creator reg.scales.work_scale InputImage.length
        reg.full_img_sizes (composeInit env reg sp) img0 = some s1 ∧
      ComposedTo env s1 InputImage.length final) := by
  unfold composeLoop at h
  have key := foldlM_range_invariant _
    (fun k s => (k = 0 ∧ s = composeInit env reg sp) ∨
      (0 < k ∧ ∃ img0 s1, InputImage[0]? = some img0 ∧
        composeFirstTouch env cfg sp.warper_creator reg.scales.work_scale InputImage.length
          reg.full_img_sizes (composeInit env reg sp) img0 = some s1 ∧
        ComposedTo env s1 k s))
    InputImage.length _ final (Or.inl ⟨rfl, rfl⟩)
    (fun k s s2 _ hP hs => by
      right
      refine ⟨Nat.succ_pos k, ?_⟩
      unfold composeBody at hs
      cases himg : InputImage[k]? with
      | none => rw [himg] at hs; simp at hs
      | some full_img =>
        rw [himg] at hs
        simp only at hs
        rcases hP with ⟨hk, hinit⟩ | ⟨hk, img0, s1, h0, hft, hc⟩
        · subst hk hinit
          have hset : (composeInit env reg sp).is_compose_scale_set = false := rfl
          simp only [hset, Bool.not_false, if_true] at hs
          cases hft : composeFirstTouch env cfg sp.warper_creator reg.scales.work_scale
              InputImage.length reg.full_img_sizes (composeInit env reg sp) full_img with
          | none => rw [hft] at hs; simp at hs
          | some s1 =>
            rw [hft, Option.some_bind] at hs
            refine ⟨full_img, s1, himg, hft, ?_⟩
            exact composeImage_step env s1 s1 s2 0 full_img
              ⟨rfl, by simp, by simp, fun m hm => Or.inl hm, by simp,
                fun i hi => absurd hi (Nat.not_lt_zero i)⟩ hs
        · have hup := composeFirstTouch_updated env cfg sp.warper_creator reg.scales.work_scale
            InputImage.length reg.full_img_sizes (composeInit env reg sp) s1 img0 hft
          have hset : s.is_compose_scale_set = true := by
            rw [hc.frame]
            simp only
            rw [hup.frame]
            rfl
          simp only [hset, Bool.not_true, Bool.false_eq_true, if_false, Option.some_bind] at hs
          exact ⟨img0, s1, h0, hft, composeImage_step env s1 s s2 k full_img hc hs⟩) h
  rcases key with ⟨hk, hf⟩ | ⟨hk, rest⟩
  · exact Or.inl ⟨hk, hf⟩
  · exact Or.inr ⟨hk, rest⟩


/-! ## Stages of `getStitchingParams` -/

theorem featureLoop_sizes {α : Type} [LinearOrderedField α] (env : Env α) (cfg : Config α)
    (finder : FinderKind) (imgs : List (Mat Point3)) (st : FeatureLoopState α env.Features) :
    (imgs.foldl (featureLoopBody env cfg finder) st).full_img_sizes
      = st.full_img_sizes ++ imgs.map Mat.size := by
  induction imgs generalizing st with
  | nil => simp
  | cons img imgs ih =>
    rw [List.foldl_cons, ih]
    simp [featureLoopBody]

/-- After registration, `full_img_sizes` holds the sizes of the input images. -/
theorem registration_sizes {α : Type} [LinearOrderedField α] (env : Env α) (cfg : Config α)
    (InputImage : List (Mat Point3)) (reg : Registered α)
    (h : (registration env cfg InputImage).2 = some reg) :
    reg.full_img_sizes = InputImage.map Mat.size := by
  unfold registration at h
  cases hf : makeFinder cfg.features_type with
  | none => rw [hf] at h; simp at h
  | some fk =>
    rw [hf] at h
    simp only at h
    cases ha : makeAdjuster cfg.ba_cost_func with
    | none => rw [ha] at h; simp at h
    | some ak =>
      rw [ha] at h
      simp only at h
      cases hm : refineMask cfg.ba_refine_mask.toList with
      | none => rw [hm] at h; simp at h
      | some m =>
        rw [hm] at h
        simp only [Option.some.injEq] at h
        rw [← h]
        simp only
        rw [featureLoop_sizes]
        simp

theorem persistCameras_ok {α : Type} (K : CameraParams α → Mat α)
    (cameras : List (CameraParams α)) (n : Nat) :
    (persistCameras K n cameras).2 = decide (n ≤ cameras.length) := by
  unfold persistCameras
  induction n with
  | zero => simp
  | succ n ih =>
    rw [List.range_succ, List.foldl_append]
    simp only [List.foldl_cons, List.foldl_nil]
    generalize List.foldl (persistBody K cameras) ([], true) (List.range n) = st at ih ⊢
    rcases st with ⟨fs, ok⟩
    simp only at ih
    subst ih
    unfold persistBody
    by_cases hle : n ≤ cameras.length
    · simp only [hle, decide_True, if_true]
      by_cases hlt : n < cameras.length
      · rw [List.getElem?_eq_getElem hlt]
        simp only
        exact (decide_eq_true (by omega : n + 1 ≤ cameras.length)).symm
      · rw [List.getElem?_eq_none (by omega)]
        simp only
        exact (decide_eq_false (by omega : ¬ n + 1 ≤ cameras.length)).symm
    · simp only [hle, decide_False, Bool.false_eq_true, if_false]
      exact (decide_eq_false (by omega : ¬ n + 1 ≤ cameras.length)).symm

/-- A run of `getStitchingParams` that reaches the compose loop has passed
registration, the persistence loop and the auxiliary warp. -/
theorem getStitchingParams_seam {α : Type} [LinearOrderedField α] (env : Env α) (cfg : Config α)
    (InputImage : List (Mat Point3)) (sp : SeamPass α)
    (h : (getStitchingParams env cfg InputImage).seam = some sp) :
    ∃ reg, (registration env cfg InputImage).2 = some reg ∧
      InputImage.length ≤ reg.cameras.length ∧
      (seamPass env cfg InputImage.length reg).2 = some sp ∧
      (getStitchingParams env cfg InputImage).result = composeLoop env cfg InputImage reg sp := by
  unfold getStitchingParams at h ⊢
  rcases hr : registration env cfg InputImage with ⟨cout, _ | reg⟩
  · rw [hr] at h; simp at h
  · rw [hr] at h
    simp only at h ⊢
    have hok := persistCameras_ok env.K reg.cameras InputImage.length
    by_cases hle : InputImage.length ≤ reg.cameras.length
    · rw [decide_eq_true hle] at hok
      simp only [hok, Bool.not_true, Bool.false_eq_true, if_false] at h ⊢
      rcases hs : seamPass env cfg InputImage.length reg with ⟨c1, _ | sp1⟩
      · rw [hs] at h; simp at h
      · rw [hs] at h
        simp only [Option.some.injEq] at h
        subst h
        exact ⟨reg, rfl, hle, by rw [hs], rfl⟩
    · rw [decide_eq_false hle] at hok
      simp only [hok, Bool.not_false, if_true] at h
      simp at h

theorem getStitchingParams_result {α : Type} [LinearOrderedField α] (env : Env α)
    (cfg : Config α) (InputImage : List (Mat Point3)) (final : ComposeState α)
    (h : (getStitchingParams env cfg InputImage).result = some final) :
    ∃ sp, (getStitchingParams env cfg InputImage).seam = some sp := by
  unfold getStitchingParams at h ⊢
  rcases hr : registration env cfg InputImage with ⟨cout, _ | reg⟩
  · rw [hr] at h; simp at h
  · rw [hr] at h
    simp only at h ⊢
    by_cases hp : (persistCameras env.K InputImage.length reg.cameras).2 = true
    · simp only [hp, Bool.not_true, Bool.false_eq_true, if_false] at h ⊢
      rcases hs : seamPass env cfg InputImage.length reg with ⟨c1, _ | sp1⟩
      · rw [hs] at h; simp at h
      · exact ⟨sp1, rfl⟩
    · have hp2 : (persistCameras env.K InputImage.length reg.cameras).2 = false := by
        simpa using hp
      simp only [hp2, Bool.not_false, if_true] at h
      simp at h

theorem waveCorrectStage_eq {α : Type} (env : Env α) (cfg : Config α)
    (cameras corrected : List (CameraParams α))
    (h : waveCorrectStage env cfg cameras = some corrected) (i : Nat) (cam : CameraParams α)
    (hcam : cameras[i]? = some cam) :
    ∃ cam1, corrected[i]? = some cam1 ∧
      (cfg.do_wave_correct = true →
        (env.waveCorrect (cameras.map fun c => c.R) cfg.wave_correct)[i]? = some cam1.R) ∧
      (cfg.do_wave_correct = false → cam1 = cam) := by
  unfold waveCorrectStage at h
  by_cases hw : cfg.do_wave_correct = true
  · simp only [hw, if_true] at h
    split_ifs at h with hlen
    simp only [Option.some.injEq] at h
    have hi : i < cameras.length := by
      rcases Nat.lt_or_ge i cameras.length with h1 | h1
      · exact h1
      · rw [List.getElem?_eq_none h1] at hcam; simp at hcam
    have hi2 : i < (env.waveCorrect (cameras.map fun c => c.R) cfg.wave_correct).length := by
      omega
    refine ⟨{ cam with R := (env.waveCorrect (cameras.map fun c => c.R) cfg.wave_correct)[i] },
      ?_, ?_, ?_⟩
    · rw [← h, List.getElem?_zipWith, hcam, List.getElem?_eq_getElem hi2]
    · intro _
      exact List.getElem?_eq_getElem hi2
    · intro hf; rw [hw] at hf; simp at hf
  · have hw2 : cfg.do_wave_correct = false := by simpa using hw
    simp only [hw2, Bool.false_eq_true, if_false, Option.some.injEq] at h
    subst h
    exact ⟨cam, hcam, fun hf => absurd hf hw, fun _ => rfl⟩

theorem seamWarp_args {α : Type} [LinearOrderedField α] (env : Env α)
    (warper : RotationWarper α) (swa : α) (cameras : List (CameraParams α))
    (images : List (Mat Point3)) (n : Nat) (seam : SeamWarpState α)
    (h : (List.range n).foldlM (seamWarpBody env warper swa cameras images)
      ⟨[], [], [], [], []⟩ = some seam) :
    seam.corners.length = n ∧ seam.sizes.length = n ∧ seam.warpArgs.length = n ∧
    ∀ i, i < n → ∃ cam, cameras[i]? = some cam ∧
      seam.warpArgs[i]? = some (scaleK (env.K cam) swa, cam.R) := by
  refine foldlM_range_invariant _
    (fun k st => st.corners.length = k ∧ st.sizes.length = k ∧ st.warpArgs.length = k ∧
      ∀ i, i < k → ∃ cam, cameras[i]? = some cam ∧
        st.warpArgs[i]? = some (scaleK (env.K cam) swa, cam.R))
    n _ seam ⟨rfl, rfl, rfl, fun i hi => absurd hi (Nat.not_lt_zero i)⟩ ?_ h
  intro k s s1 _ hP hs
  unfold seamWarpBody at hs
  cases hcam : cameras[k]? with
  | none => rw [hcam] at hs; simp at hs
  | some cam =>
    cases himg : images[k]? with
    | none => rw [hcam, himg] at hs; simp at hs
    | some image =>
      rw [hcam, himg] at hs
      simp only [Option.some.injEq] at hs
      subst hs
      obtain ⟨p1, p2, p3, p4⟩ := hP
      refine ⟨by simp [p1], by simp [p2], by simp [p3], ?_⟩
      intro i hi
      by_cases hik : i = k
      · subst hik
        refine ⟨cam, hcam, ?_⟩
        simp only
        rw [← p3, List.getElem?_append_right (le_refl _)]
        simp
      · obtain ⟨cam', a, b⟩ := p4 i (by omega)
        refine ⟨cam', a, ?_⟩
        simp only
        rw [List.getElem?_append_left (by omega)]
        exact b

/-- What an auxiliary pass that completes has computed. -/
theorem seamPass_eq {α : Type} [LinearOrderedField α] (env : Env α) (cfg : Config α)
    (n : Nat) (reg : Registered α) (sp : SeamPass α)
    (h : (seamPass env cfg n reg).2 = some sp) :
    waveCorrectStage env cfg reg.cameras = some sp.cameras ∧
    sp.seam.corners.length = n ∧ sp.seam.sizes.length = n ∧
    ∀ i, i < n → ∃ cam, sp.cameras[i]? = some cam ∧
      sp.seam.warpArgs[i]? = some (scaleK (env.K cam) reg.scales.seam_work_aspect, cam.R) := by
  unfold seamPass at h
  cases hmed : medianFocal (reg.cameras.map fun c => c.focal) with
  | none => rw [hmed] at h; simp at h
  | some wis =>
    rw [hmed] at h
    simp only at h
    cases hwc : waveCorrectStage env cfg reg.cameras with
    | none => rw [hwc] at h; simp at h
    | some cams =>
      rw [hwc] at h
      simp only at h
      cases hmk : makeWarperCreator cfg.warp_type with
      | none => rw [hmk] at h; simp at h
      | some wc =>
        rw [hmk] at h
        simp only at h
        cases hloop : (List.range n).foldlM
            (seamWarpBody env (env.warperCreate wc (wis * reg.scales.seam_work_aspect))
              reg.scales.seam_work_aspect cams reg.images) ⟨[], [], [], [], []⟩ with
        | none => rw [hloop] at h; simp at h
        | some seam =>
          rw [hloop] at h
          simp only [Option.some.injEq] at h
          subst h
          obtain ⟨a, b, _, d⟩ := seamWarp_args env _ _ cams reg.images n seam hloop
          exact ⟨rfl, a, b, d⟩



/-! ## The scale variables inside the pipeline -/

theorem featureLoop_scales {α : Type} [LinearOrderedField α] (env : Env α) (cfg : Config α)
    (finder : FinderKind) (imgs : List (Mat Point3)) (st : FeatureLoopState α env.Features) :
    (imgs.foldl (featureLoopBody env cfg finder) st).scales
      = (imgs.map fun m => m.size.area).foldl
          (featureLoopScales env.sqrt cfg.work_megapix cfg.seam_megapix) st.scales := by
  induction imgs generalizing st with
  | nil => rfl
  | cons img imgs ih =>
    rw [List.foldl_cons, ih]
    rfl

/-- After registration, the scale variables are those of
`scalesAfterFeatureLoop` on the areas of the input images. -/
theorem registration_scales {α : Type} [LinearOrderedField α] (env : Env α) (cfg : Config α)
    (InputImage : List (Mat Point3)) (reg : Registered α)
    (h : (registration env cfg InputImage).2 = some reg) :
    reg.scales = scalesAfterFeatureLoop env.sqrt cfg.work_megapix cfg.seam_megapix
      (InputImage.map fun m => m.size.area) := by
  unfold registration at h
  cases hf : makeFinder cfg.features_type with
  | none => rw [hf] at h; simp at h
  | some fk =>
    rw [hf] at h
    simp only at h
    cases ha : makeAdjuster cfg.ba_cost_func with
    | none => rw [ha] at h; simp at h
    | some ak =>
      rw [ha] at h
      simp only at h
      cases hm : refineMask cfg.ba_refine_mask.toList with
      | none => rw [hm] at h; simp at h
      | some m =>
        rw [hm] at h
        simp only [Option.some.injEq] at h
        rw [← h]
        simp only
        rw [featureLoop_scales]
        rfl

/-- The compose scale that the first-touch block assigns in the first iteration
of the compose loop is `composeScaleOf`. -/
theorem composeScales_compose_scale {α : Type} [LinearOrderedField α] (env : Env α)
    (cfg : Config α) (warper_creator : WarperKind) (work_scale : α) (reg : Registered α)
    (sp : SeamPass α) (full_img : Mat Point3) :
    (composeScales env cfg warper_creator work_scale (composeInit env reg sp) full_img).compose_scale
      = composeScaleOf env.sqrt cfg.compose_megapix full_img.size.area := rfl


/-! # The claims -/

/-- C1. For a first image of area `A > 0` and positive megapixel budgets, the work
scale, the seam scale and the compose scale that `getStitchingParams` computes
are each `min(1, sqrt(budget * 1e6 / A))`, lie in `(0, 1]`, and equal 1 whenever
`A ≤ budget * 1e6`. The arithmetic is exact; `sqrt` is any function that is
positive on positive arguments and at least 1 on arguments at least 1. -/
theorem scale_bounds {α : Type} [LinearOrderedField α] (sqrt : α → α)
    (hpos : ∀ x, 0 < x → 0 < sqrt x) (hone : ∀ x, 1 ≤ x → 1 ≤ sqrt x)
    (A : Int) (rest : List Int) (work_megapix seam_megapix compose_megapix : α)
    (hA : 0 < A) (hw : 0 < work_megapix) (hs : 0 < seam_megapix) (hc : 0 < compose_megapix) :
    ((scalesAfterFeatureLoop sqrt work_megapix seam_megapix (A :: rest)).work_scale
        = scaleFormula sqrt work_megapix A ∧
      0 < (scalesAfterFeatureLoop sqrt work_megapix seam_megapix (A :: rest)).work_scale ∧
      (scalesAfterFeatureLoop sqrt work_megapix seam_megapix (A :: rest)).work_scale ≤ 1 ∧
      ((A : α) ≤ work_megapix * 1000000 →
        (scalesAfterFeatureLoop sqrt work_megapix seam_megapix (A :: rest)).work_scale = 1)) ∧
    ((scalesAfterFeatureLoop sqrt work_megapix seam_megapix (A :: rest)).seam_scale
        = scaleFormula sqrt seam_megapix A ∧
      0 < (scalesAfterFeatureLoop sqrt work_megapix seam_megapix (A :: rest)).seam_scale ∧
      (scalesAfterFeatureLoop sqrt work_megapix seam_megapix (A :: rest)).seam_scale ≤ 1 ∧
      ((A : α) ≤ seam_megapix * 1000000 →
        (scalesAfterFeatureLoop sqrt work_megapix seam_megapix (A :: rest)).seam_scale = 1)) ∧
    (composeScaleOf sqrt compose_megapix A = scaleFormula sqrt compose_megapix A ∧
      0 < composeScaleOf sqrt compose_megapix A ∧
      composeScaleOf sqrt compose_megapix A ≤ 1 ∧
      ((A : α) ≤ compose_megapix * 1000000 → composeScaleOf sqrt compose_megapix A = 1)) := by
  have hwn : ¬ work_megapix < 0 := not_lt.mpr (le_of_lt hw)
  have hfold : scalesAfterFeatureLoop sqrt work_megapix seam_megapix (A :: rest)
      = featureLoopScales sqrt work_megapix seam_megapix ScaleState.init A := by
    unfold scalesAfterFeatureLoop
    rw [List.foldl_cons]
    apply foldl_featureLoopScales_fixed sqrt work_megapix seam_megapix hwn
    · simp [featureLoopScales, hwn, ScaleState.init]
    · simp [featureLoopScales, hwn, ScaleState.init]
  have e1 : (scalesAfterFeatureLoop sqrt work_megapix seam_megapix (A :: rest)).work_scale
      = scaleFormula sqrt work_megapix A := by
    rw [hfold]; simp [featureLoopScales, hwn, ScaleState.init]
  have e2 : (scalesAfterFeatureLoop sqrt work_megapix seam_megapix (A :: rest)).seam_scale
      = scaleFormula sqrt seam_megapix A := by
    rw [hfold]; simp [featureLoopScales, hwn, ScaleState.init]
  have e3 : composeScaleOf sqrt compose_megapix A = scaleFormula sqrt compose_megapix A := by
    simp [composeScaleOf, hc]
  have key : ∀ B : α, 0 < B →
      0 < scaleFormula sqrt B A ∧ scaleFormula sqrt B A ≤ 1 ∧
      ((A : α) ≤ B * 1000000 → scaleFormula sqrt B A = 1) := by
    intro B hB
    have hAα : (0 : α) < (A : α) := by exact_mod_cast hA
    have hx : 0 < B * 1000000 / (A : α) := by positivity
    refine ⟨?_, stdMin_le_left _ _, ?_⟩
    · unfold scaleFormula stdMin
      split_ifs
      · exact hpos _ hx
      · exact one_pos
    · intro hle
      have h1 : 1 ≤ B * 1000000 / (A : α) := by
        rw [le_div_iff₀ hAα]; simpa using hle
      unfold scaleFormula stdMin
      rw [if_neg (not_lt.mpr (hone _ h1))]
  rw [e1, e2, e3]
  exact ⟨⟨rfl, key _ hw⟩, ⟨rfl, key _ hs⟩, ⟨rfl, key _ hc⟩⟩

/-- Witness of C1: the real square root, a first image of 2,000,000 pixels, the
default budgets 0.6 and 0.1 for work and seam, and a compose budget of 3. -/
theorem scale_bounds_witness :
    ((0 : Int) < 2000000 ∧ (0 : ℝ) < 6 / 10 ∧ (0 : ℝ) < 1 / 10 ∧ (0 : ℝ) < 3) ∧
    (((scalesAfterFeatureLoop Real.sqrt (6 / 10 : ℝ) (1 / 10) (2000000 :: [307200])).work_scale
        = scaleFormula Real.sqrt (6 / 10) 2000000 ∧
      0 < (scalesAfterFeatureLoop Real.sqrt (6 / 10 : ℝ) (1 / 10)
        (2000000 :: [307200])).work_scale ∧
      (scalesAfterFeatureLoop Real.sqrt (6 / 10 : ℝ) (1 / 10)
        (2000000 :: [307200])).work_scale ≤ 1 ∧
      (((2000000 : Int) : ℝ) ≤ 6 / 10 * 1000000 →
        (scalesAfterFeatureLoop Real.sqrt (6 / 10 : ℝ) (1 / 10)
          (2000000 :: [307200])).work_scale = 1)) ∧
    ((scalesAfterFeatureLoop Real.sqrt (6 / 10 : ℝ) (1 / 10) (2000000 :: [307200])).seam_scale
        = scaleFormula Real.sqrt (1 / 10) 2000000 ∧
      0 < (scalesAfterFeatureLoop Real.sqrt (6 / 10 : ℝ) (1 / 10)
        (2000000 :: [307200])).seam_scale ∧
      (scalesAfterFeatureLoop Real.sqrt (6 / 10 : ℝ) (1 / 10)
        (2000000 :: [307200])).seam_scale ≤ 1 ∧
      (((2000000 : Int) : ℝ) ≤ 1 / 10 * 1000000 →
        (scalesAfterFeatureLoop Real.sqrt (6 / 10 : ℝ) (1 / 10)
          (2000000 :: [307200])).seam_scale = 1)) ∧
    (composeScaleOf Real.sqrt (3 : ℝ) 2000000 = scaleFormula Real.sqrt 3 2000000 ∧
      0 < composeScaleOf Real.sqrt (3 : ℝ) 2000000 ∧
      composeScaleOf Real.sqrt (3 : ℝ) 2000000 ≤ 1 ∧
      (((2000000 : Int) : ℝ) ≤ 3 * 1000000 → composeScaleOf Real.sqrt (3 : ℝ) 2000000 = 1))) :=
  ⟨⟨by decide, by norm_num, by norm_num, by norm_num⟩,
   scale_bounds Real.sqrt (fun _ h => Real.sqrt_pos.mpr h) (fun _ h => Real.one_le_sqrt.mpr h)
    2000000 [307200] (6 / 10) (1 / 10) 3 (by decide) (by norm_num) (by norm_num) (by norm_num)⟩

/-- C2 (counterexample). With `work_megapix = 0` and one image of 640 by 480
pixels the work scale is `min(1, sqrt(0))`, that is 0, not 1: the guard of line
177 is `work_megapix < 0`. -/
theorem zero_work_budget_scale_zero :
    (scalesAfterFeatureLoop Real.sqrt (0 : ℝ) (1 / 10) [640 * 480]).work_scale = 0 ∧
    ¬ (scalesAfterFeatureLoop Real.sqrt (0 : ℝ) (1 / 10) [640 * 480]).work_scale = 1 := by
  have h : (scalesAfterFeatureLoop Real.sqrt (0 : ℝ) (1 / 10) [640 * 480]).work_scale = 0 := by
    simp [scalesAfterFeatureLoop, featureLoopScales, ScaleState.init, scaleFormula, stdMin]
  exact ⟨h, by rw [h]; norm_num⟩

/-- C2 (amended). A negative work budget (`work_megapix < 0`) makes the work
scale exactly 1, and a negative or zero compose budget (`compose_megapix ≤ 0`)
makes the compose scale exactly 1, whatever the image areas; in particular
`compose_megapix = 0` gives `compose_scale = 1`. -/
theorem negative_work_or_nonpositive_compose_scale_one {α : Type} [LinearOrderedField α]
    (sqrt : α → α) (areas : List Int) (A : Int) (work_megapix seam_megapix compose_megapix : α)
    (hw : work_megapix < 0) (hc : compose_megapix ≤ 0) :
    (scalesAfterFeatureLoop sqrt work_megapix seam_megapix areas).work_scale = 1 ∧
    composeScaleOf sqrt compose_megapix A = 1 ∧
    composeScaleOf sqrt 0 A = 1 := by
  refine ⟨?_, ?_, ?_⟩
  · unfold scalesAfterFeatureLoop
    rcases List.eq_nil_or_concat areas with h | ⟨l, a, h⟩
    · subst h; rfl
    · subst h
      rw [List.concat_eq_append, List.foldl_append]
      simp only [List.foldl_cons, List.foldl_nil]
      exact featureLoopScales_neg_work sqrt _ _ hw _ a
  · simp [composeScaleOf, not_lt.mpr hc]
  · simp [composeScaleOf]

/-- Witness of C2 (amended): the real square root, `work_megapix = -1`,
`compose_megapix = -1` (the default) and two images of 640 by 480 pixels. -/
theorem negative_work_or_nonpositive_compose_scale_one_witness :
    ((-1 : ℝ) < 0 ∧ (-1 : ℝ) ≤ 0) ∧
    ((scalesAfterFeatureLoop Real.sqrt (-1 : ℝ) (1 / 10) [307200, 307200]).work_scale = 1 ∧
     composeScaleOf Real.sqrt (-1 : ℝ) 307200 = 1 ∧
     composeScaleOf Real.sqrt (0 : ℝ) 307200 = 1) :=
  ⟨⟨by norm_num, by norm_num⟩,
   negative_work_or_nonpositive_compose_scale_one Real.sqrt [307200, 307200] 307200 (-1)
    (1 / 10) (-1) (by norm_num) (by norm_num)⟩

/-- C3. For a non-empty list of focal lengths in any order, the
`warped_image_scale` of lines 302-307 is the true median: for every ascending
rearrangement `s` of the list it is the middle element of `s` when the count is
odd and the average of the two middle elements of `s` when the count is even
(exact arithmetic); in particular it exists. -/
theorem medianFocal_is_true_median {α : Type} [LinearOrderedField α] (focals s : List α)
    (hne : focals ≠ []) (hperm : s.Perm focals) (hsorted : s.Sorted (fun a b => a ≤ b)) :
    medianFocal focals = trueMedianOfSorted s ∧ ∃ m, medianFocal focals = some m := by
  have hs : stdSort focals = s := by
    unfold stdSort
    exact List.eq_of_perm_of_sorted ((List.perm_insertionSort _ focals).trans hperm.symm)
      (List.sorted_insertionSort _ focals) hsorted
  have hlen : 0 < s.length := by
    rw [hperm.length_eq]; exact List.length_pos.mpr hne
  have hmed : medianFocal focals = trueMedianOfSorted s := by
    unfold medianFocal trueMedianOfSorted
    simp only [hs]
    split_ifs with h
    · rfl
    · cases s[s.length / 2 - 1]? <;> cases s[s.length / 2]? <;> simp
      ring
  refine ⟨hmed, ?_⟩
  rw [hmed]
  unfold trueMedianOfSorted
  split_ifs with h
  · have : s.length / 2 < s.length := by omega
    exact ⟨s[s.length / 2], List.getElem?_eq_getElem this⟩
  · have h1 : s.length / 2 - 1 < s.length := by omega
    have h2 : s.length / 2 < s.length := by omega
    rw [List.getElem?_eq_getElem h1, List.getElem?_eq_getElem h2]
    exact ⟨_, rfl⟩

/-- Witness of C3: the focal lengths 30, 10, 20 have median 20 and the focal
lengths 40, 10, 30, 20 have median 25. -/
theorem medianFocal_is_true_median_witness :
    (([30, 10, 20] : List ℚ) ≠ [] ∧ ([10, 20, 30] : List ℚ).Perm [30, 10, 20] ∧
      ([10, 20, 30] : List ℚ).Sorted (fun a b => a ≤ b)) ∧
    (medianFocal ([30, 10, 20] : List ℚ) = trueMedianOfSorted [10, 20, 30] ∧
      ∃ m, medianFocal ([30, 10, 20] : List ℚ) = some m) ∧
    trueMedianOfSorted ([10, 20, 30] : List ℚ) = some 20 ∧
    (([40, 10, 30, 20] : List ℚ) ≠ [] ∧ ([10, 20, 30, 40] : List ℚ).Perm [40, 10, 30, 20] ∧
      ([10, 20, 30, 40] : List ℚ).Sorted (fun a b => a ≤ b)) ∧
    (medianFocal ([40, 10, 30, 20] : List ℚ) = trueMedianOfSorted [10, 20, 30, 40] ∧
      ∃ m, medianFocal ([40, 10, 30, 20] : List ℚ) = some m) ∧
    trueMedianOfSorted ([10, 20, 30, 40] : List ℚ) = some 25 :=
  ⟨⟨by decide, by decide, by decide⟩,
   medianFocal_is_true_median [30, 10, 20] [10, 20, 30] (by decide) (by decide) (by decide),
   by decide,
   ⟨by decide, by decide, by decide⟩,
   medianFocal_is_true_median [40, 10, 30, 20] [10, 20, 30, 40] (by decide) (by decide)
    (by decide),
   by norm_num [trueMedianOfSorted]⟩

/-- C4. For every 5-character string `s`, the 3 by 3 matrix `refine_mask` of
lines 266-271 is built, has entry (0,0) = 1 iff `s[0] = 'x'`, (0,1) = 1 iff
`s[1] = 'x'`, (0,2) = 1 iff `s[2] = 'x'`, (1,1) = 1 iff `s[3] = 'x'`, (1,2) = 1
iff `s[4] = 'x'`, has the entries (1,0), (2,0), (2,1), (2,2) equal to 0, and
every entry is 0 or 1. -/
theorem refineMask_spec (s : List Char) (hs : s.length = 5) :
    ∃ m, refineMask s = some m ∧ m.rows = 3 ∧ m.cols = 3 ∧
      (m.px 0 0 = 1 ↔ s[0]? = some 'x') ∧
      (m.px 0 1 = 1 ↔ s[1]? = some 'x') ∧
      (m.px 0 2 = 1 ↔ s[2]? = some 'x') ∧
      (m.px 1 1 = 1 ↔ s[3]? = some 'x') ∧
      (m.px 1 2 = 1 ↔ s[4]? = some 'x') ∧
      m.px 1 0 = 0 ∧ m.px 2 0 = 0 ∧ m.px 2 1 = 0 ∧ m.px 2 2 = 0 ∧
      ∀ i j, m.px i j = 0 ∨ m.px i j = 1 := by
  refine Exists.intro _ (And.intro (refineMask_eq s hs) ?_)
  simp only [refineStepValue_px, refineStepValue_rows, refineStepValue_cols, Mat.filled]
  refine ⟨trivial, trivial, by simp, by simp, by simp, by simp, by simp, by simp, by simp,
    by simp, by simp, ?_⟩
  intro i j
  split_ifs <;> simp

/-- Witness of C4: the mask string `xxx_x`. -/
theorem refineMask_spec_witness :
    ['x', 'x', 'x', '_', 'x'].length = 5 ∧
    ∃ m, refineMask ['x', 'x', 'x', '_', 'x'] = some m ∧ m.rows = 3 ∧ m.cols = 3 ∧
      (m.px 0 0 = 1 ↔ ['x', 'x', 'x', '_', 'x'][0]? = some 'x') ∧
      (m.px 0 1 = 1 ↔ ['x', 'x', 'x', '_', 'x'][1]? = some 'x') ∧
      (m.px 0 2 = 1 ↔ ['x', 'x', 'x', '_', 'x'][2]? = some 'x') ∧
      (m.px 1 1 = 1 ↔ ['x', 'x', 'x', '_', 'x'][3]? = some 'x') ∧
      (m.px 1 2 = 1 ↔ ['x', 'x', 'x', '_', 'x'][4]? = some 'x') ∧
      m.px 1 0 = 0 ∧ m.px 2 0 = 0 ∧ m.px 2 1 = 0 ∧ m.px 2 2 = 0 ∧
      ∀ i j, m.px i j = 0 ∨ m.px i j = 1 :=
  ⟨rfl, refineMask_spec ['x', 'x', 'x', '_', 'x'] rfl⟩


/-- C5. In every run of `getStitchingParams` that completes, with the OpenCV routine
`resultRoi` returning the bounding rectangle, the rectangle `dst_roi` of each
iteration of the compose loop is `resultRoi` of the final `corners` and `sizes`,
the same rectangle for every image; there is one output buffer per image and
every buffer has the height and width of that rectangle. The final `corners`
and `sizes` hold, for every image, the corner and size of the rectangle that
`warpRoi` of the compose-scale warper returned in the first iteration (not the
values of the auxiliary pass). The rectangle covers every (corner, corner +
size) pair, and it is contained in every rectangle that does so when no size
is negative. -/
theorem compose_roi_shared {α : Type} [LinearOrderedField α] (env : Env α) (cfg : Config α)
    (InputImage : List (Mat Point3)) (final : ComposeState α)
    (hrun : (getStitchingParams env cfg InputImage).result = some final)
    (hroi : ∀ corners sizes, env.resultRoi corners sizes = boundingRect corners sizes) :
    final.dst_rois
      = List.replicate InputImage.length (env.resultRoi final.corners final.sizes) ∧
    env.resultRoi final.corners final.sizes = boundingRect final.corners final.sizes ∧
    final.transformedImages.length = InputImage.length ∧
    (∀ m ∈ final.transformedImages,
      m.rows = (boundingRect final.corners final.sizes).height.toNat ∧
      m.cols = (boundingRect final.corners final.sizes).width.toNat) ∧
    final.corners.length = InputImage.length ∧ final.sizes.length = InputImage.length ∧
    (∃ sp, (getStitchingParams env cfg InputImage).seam = some sp ∧
      (0 < InputImage.length →
        final.warper = env.warperCreate sp.warper_creator final.warped_image_scale) ∧
      ∀ i, i < InputImage.length → ∃ cam full_img,
        sp.cameras[i]? = some cam ∧ InputImage[i]? = some full_img ∧
        final.corners[i]? = some (composeRoi env final cam full_img.size).tl ∧
        final.sizes[i]? = some (composeRoi env final cam full_img.size).size) ∧
    (∀ (i : Nat) c s, final.corners[i]? = some c → final.sizes[i]? = some s →
      (boundingRect final.corners final.sizes).covers c s) ∧
    (∀ r : Rect, 0 < InputImage.length →
      (∀ s ∈ final.sizes, 0 ≤ s.width ∧ 0 ≤ s.height) →
      (∀ (i : Nat) c s, final.corners[i]? = some c → final.sizes[i]? = some s → r.covers c s) →
      r.x ≤ (boundingRect final.corners final.sizes).x ∧
      r.y ≤ (boundingRect final.corners final.sizes).y ∧
      (boundingRect final.corners final.sizes).x + (boundingRect final.corners final.sizes).width
        ≤ r.x + r.width ∧
      (boundingRect final.corners final.sizes).y
          + (boundingRect final.corners final.sizes).height
        ≤ r.y + r.height) := by
  obtain ⟨sp, hsp⟩ := getStitchingParams_result env cfg InputImage final hrun
  obtain ⟨reg, hreg, hlen, hseam, hres⟩ := getStitchingParams_seam env cfg InputImage sp hsp
  rw [hres] at hrun
  obtain ⟨_, hcl, hsl, _⟩ := seamPass_eq env cfg InputImage.length reg sp hseam
  have hsizes := registration_sizes env cfg InputImage reg hreg
  have hcorlen : final.corners.length = InputImage.length ∧
      final.sizes.length = InputImage.length := by
    rcases composeLoop_invariant env cfg InputImage reg sp final hrun with
      ⟨h0, hf⟩ | ⟨hpos, img0, s1, himg0, hft, hc⟩
    · subst hf; exact ⟨hcl, hsl⟩
    · have hup := composeFirstTouch_updated env cfg sp.warper_creator reg.scales.work_scale
        InputImage.length reg.full_img_sizes (composeInit env reg sp) s1 img0 hft
      have e1 : final.corners = s1.corners := by rw [hc.frame]
      have e2 : final.sizes = s1.sizes := by rw [hc.frame]
      rw [e1, e2, hup.corners_length, hup.sizes_length]
      exact ⟨hcl, hsl⟩
  have hcover : ∀ (i : Nat) c s, final.corners[i]? = some c → final.sizes[i]? = some s →
      (boundingRect final.corners final.sizes).covers c s :=
    fun i c s h1 h2 => boundingRect_covers final.corners final.sizes i c s h1 h2
  have hmin : ∀ r : Rect, 0 < InputImage.length →
      (∀ s ∈ final.sizes, 0 ≤ s.width ∧ 0 ≤ s.height) →
      (∀ (i : Nat) c s, final.corners[i]? = some c → final.sizes[i]? = some s → r.covers c s) →
      r.x ≤ (boundingRect final.corners final.sizes).x ∧
      r.y ≤ (boundingRect final.corners final.sizes).y ∧
      (boundingRect final.corners final.sizes).x + (boundingRect final.corners final.sizes).width
        ≤ r.x + r.width ∧
      (boundingRect final.corners final.sizes).y
          + (boundingRect final.corners final.sizes).height
        ≤ r.y + r.height := by
    intro r hpos hnn hr
    apply boundingRect_minimal final.corners final.sizes r _ _ hnn hr
    · intro hnil
      rw [hnil] at hcorlen
      simp at hcorlen
      omega
    · rw [hcorlen.1, hcorlen.2]
  rcases composeLoop_invariant env cfg InputImage reg sp final hrun with
    ⟨h0, hf⟩ | ⟨hpos, img0, s1, himg0, hft, hc⟩
  · subst hf
    refine ⟨?_, hroi _ _, ?_, ?_, hcorlen.1, hcorlen.2, ⟨sp, hsp, ?_, ?_⟩, hcover, hmin⟩
    · rw [h0]; rfl
    · rw [h0]; rfl
    · intro m hm; simp [composeInit] at hm
    · intro hp; omega
    · intro i hi; omega
  · have hup := composeFirstTouch_updated env cfg sp.warper_creator reg.scales.work_scale
      InputImage.length reg.full_img_sizes (composeInit env reg sp) s1 img0 hft
    have e1 : final.corners = s1.corners := by rw [hc.frame]
    have e2 : final.sizes = s1.sizes := by rw [hc.frame]
    have e3 : s1.dst_rois = [] := by rw [hup.frame]; rfl
    have e4 : s1.transformedImages = [] := by rw [hup.frame]; rfl
    have e5 : ∀ cam fs, composeRoi env final cam fs
        = composeRoi env (composeScales env cfg sp.warper_creator reg.scales.work_scale
            (composeInit env reg sp) img0) cam fs := by
      intro cam fs
      rw [hc.frame]
      unfold composeRoi composeCamera
      simp only
      rw [hup.frame]
    refine ⟨?_, hroi _ _, ?_, ?_, hcorlen.1, hcorlen.2, ⟨sp, hsp, ?_, ?_⟩, hcover, hmin⟩
    · rw [hc.rois, e3, e1, e2]; rfl
    · rw [hc.images_length, e4]; simp
    · intro m hm
      rcases hc.images_dims m hm with h | h
      · rw [e4] at h; simp at h
      · rw [e1, e2, ← hroi]; exact h
    · intro _
      rw [hc.frame]
      simp only
      rw [hup.frame]
      rfl
    · intro i hi
      obtain ⟨cam, fs, a, b, _, d, e⟩ := hup.done i hi
      rw [hsizes, List.getElem?_map] at b
      cases himg : InputImage[i]? with
      | none => rw [himg] at b; simp at b
      | some full_img =>
        rw [himg] at b
        simp only [Option.map_some', Option.some.injEq] at b
        refine ⟨cam, full_img, a, rfl, ?_, ?_⟩
        · rw [e1, e5, b]; exact d
        · rw [e2, e5, b]; exact e

/-- Witness of C5: the run on `demoImages` in `demoEnv` with the default
configuration completes, and `resultRoi` of `demoEnv` is the bounding
rectangle. -/
theorem compose_roi_shared_witness :
    ∃ final, ((getStitchingParams demoEnv (Config.default : Config ℚ) demoImages).result
        = some final ∧
      ∀ corners sizes, demoEnv.resultRoi corners sizes = boundingRect corners sizes) ∧
      (final.dst_rois
        = List.replicate demoImages.length (demoEnv.resultRoi final.corners final.sizes) ∧
      demoEnv.resultRoi final.corners final.sizes = boundingRect final.corners final.sizes ∧
      final.transformedImages.length = demoImages.length ∧
      (∀ m ∈ final.transformedImages,
        m.rows = (boundingRect final.corners final.sizes).height.toNat ∧
        m.cols = (boundingRect final.corners final.sizes).width.toNat) ∧
      final.corners.length = demoImages.length ∧ final.sizes.length = demoImages.length ∧
      (∃ sp, (getStitchingParams demoEnv (Config.default : Config ℚ) demoImages).seam
          = some sp ∧
        (0 < demoImages.length →
          final.warper = demoEnv.warperCreate sp.warper_creator final.warped_image_scale) ∧
        ∀ i, i < demoImages.length → ∃ cam full_img,
          sp.cameras[i]? = some cam ∧ demoImages[i]? = some full_img ∧
          final.corners[i]? = some (composeRoi demoEnv final cam full_img.size).tl ∧
          final.sizes[i]? = some (composeRoi demoEnv final cam full_img.size).size) ∧
      (∀ (i : Nat) c s, final.corners[i]? = some c → final.sizes[i]? = some s →
        (boundingRect final.corners final.sizes).covers c s) ∧
      (∀ r : Rect, 0 < demoImages.length →
        (∀ s ∈ final.sizes, 0 ≤ s.width ∧ 0 ≤ s.height) →
        (∀ (i : Nat) c s, final.corners[i]? = some c → final.sizes[i]? = some s →
          r.covers c s) →
        r.x ≤ (boundingRect final.corners final.sizes).x ∧
        r.y ≤ (boundingRect final.corners final.sizes).y ∧
        (boundingRect final.corners final.sizes).x
            + (boundingRect final.corners final.sizes).width
          ≤ r.x + r.width ∧
        (boundingRect final.corners final.sizes).y
            + (boundingRect final.corners final.sizes).height
          ≤ r.y + r.height)) :=
  have h : (getStitchingParams demoEnv (Config.default : Config ℚ) demoImages).result.isSome
      = true := by decide!
  ⟨_, ⟨(Option.some_get h).symm, fun _ _ => rfl⟩,
    compose_roi_shared demoEnv Config.default demoImages _ (Option.some_get h).symm
      (fun _ _ => rfl)⟩

/-- C6. Two warped images whose footprints lie inside the destination are placed
with `getWarpedRegisteredImage` one after the other into the same buffers, the
destination mask being blank at the start. Both calls return, in either order;
the two orders give the same destination mask; and at every pixel covered by
both footprints the destination mask is the bitwise OR of the two source mask
values, hence non-zero iff at least one of them is non-zero. -/
theorem mask_or_compositing (img1 img2 : Mat Point3) (mask1 mask2 : Mat Nat) (tl1 tl2 : Point)
    (dst_roi : Rect) (dst_ : Mat Point3)
    (hmr1 : img1.rows ≤ mask1.rows) (hmc1 : img1.cols ≤ mask1.cols)
    (hmr2 : img2.rows ≤ mask2.rows) (hmc2 : img2.cols ≤ mask2.cols)
    (hx1 : 0 ≤ tl1.x - dst_roi.x) (hy1 : 0 ≤ tl1.y - dst_roi.y)
    (hx2 : 0 ≤ tl2.x - dst_roi.x) (hy2 : 0 ≤ tl2.y - dst_roi.y)
    (hc1 : tl1.x - dst_roi.x + img1.cols ≤ dst_.cols)
    (hr1 : tl1.y - dst_roi.y + img1.rows ≤ dst_.rows)
    (hc2 : tl2.x - dst_roi.x + img2.cols ≤ dst_.cols)
    (hr2 : tl2.y - dst_roi.y + img2.rows ≤ dst_.rows) :
    ∃ a b,
      (getWarpedRegisteredImage img1 mask1 tl1 dst_roi (Mat.filled dst_.rows dst_.cols 0) dst_).bind
        (fun s => getWarpedRegisteredImage img2 mask2 tl2 dst_roi s.1 s.2) = some a ∧
      (getWarpedRegisteredImage img2 mask2 tl2 dst_roi (Mat.filled dst_.rows dst_.cols 0) dst_).bind
        (fun s => getWarpedRegisteredImage img1 mask1 tl1 dst_roi s.1 s.2) = some b ∧
      (∀ r c, a.1.px r c = b.1.px r c) ∧
      ∀ y1 x1 y2 x2, y1 < img1.rows → x1 < img1.cols → y2 < img2.rows → x2 < img2.cols →
        tl1.y - dst_roi.y + y1 = tl2.y - dst_roi.y + y2 →
        tl1.x - dst_roi.x + x1 = tl2.x - dst_roi.x + x2 →
        a.1.px (tl1.y - dst_roi.y + y1).toNat (tl1.x - dst_roi.x + x1).toNat
          = mask1.px y1 x1 ||| mask2.px y2 x2 ∧
        (a.1.px (tl1.y - dst_roi.y + y1).toNat (tl1.x - dst_roi.x + x1).toNat ≠ 0 ↔
          mask1.px y1 x1 ≠ 0 ∨ mask2.px y2 x2 ≠ 0) := by
  obtain ⟨cx1, hcx1⟩ := Int.eq_ofNat_of_zero_le hx1
  obtain ⟨cy1, hcy1⟩ := Int.eq_ofNat_of_zero_le hy1
  obtain ⟨cx2, hcx2⟩ := Int.eq_ofNat_of_zero_le hx2
  obtain ⟨cy2, hcy2⟩ := Int.eq_ofNat_of_zero_le hy2
  rw [hcx1] at hc1
  rw [hcy1] at hr1
  rw [hcx2] at hc2
  rw [hcy2] at hr2
  obtain ⟨a, ha, hpa⟩ := two_placements_mask img1 img2 mask1 mask2 tl1 tl2 dst_roi
    dst_.rows dst_.cols dst_ rfl rfl cx1 cy1 cx2 cy2 hcx1 hcy1 hcx2 hcy2 hmr1 hmc1 hmr2 hmc2
    (by omega) (by omega) (by omega) (by omega)
  obtain ⟨b, hb, hpb⟩ := two_placements_mask img2 img1 mask2 mask1 tl2 tl1 dst_roi
    dst_.rows dst_.cols dst_ rfl rfl cx2 cy2 cx1 cy1 hcx2 hcy2 hcx1 hcy1 hmr2 hmc2 hmr1 hmc1
    (by omega) (by omega) (by omega) (by omega)
  refine ⟨a, b, ha, hb, ?_, ?_⟩
  · intro r c
    rw [hpa, hpb, Nat.lor_comm]
  · intro y1 x1 y2 x2 h1 h2 h3 h4 ey ex
    have e1 : (tl1.y - dst_roi.y + (y1 : Int)).toNat = cy1 + y1 := by rw [hcy1]; omega
    have e2 : (tl1.x - dst_roi.x + (x1 : Int)).toNat = cx1 + x1 := by rw [hcx1]; omega
    have e3 : cy1 + y1 = cy2 + y2 := by rw [hcy1, hcy2] at ey; omega
    have e4 : cx1 + x1 = cx2 + x2 := by rw [hcx1, hcx2] at ex; omega
    have hin1 : inFootprint cy1 cx1 img1.rows img1.cols (cy1 + y1) (cx1 + x1) := by
      unfold inFootprint; omega
    have hin2 : inFootprint cy2 cx2 img2.rows img2.cols (cy1 + y1) (cx1 + x1) := by
      unfold inFootprint; omega
    have hv : a.1.px (cy1 + y1) (cx1 + x1) = mask1.px y1 x1 ||| mask2.px y2 x2 := by
      rw [hpa, if_pos hin1, if_pos hin2]
      have s1 : cy1 + y1 - cy1 = y1 := by omega
      have s2 : cx1 + x1 - cx1 = x1 := by omega
      have s3 : cy1 + y1 - cy2 = y2 := by omega
      have s4 : cx1 + x1 - cx2 = x2 := by omega
      rw [s1, s2, s3, s4]
    rw [e1, e2, hv]
    refine ⟨rfl, ?_⟩
    rw [Ne, lor_eq_zero_iff]
    tauto

/-- Witness of C6: two strips of 1 by 2 pixels placed at columns 0 and 1 of a
destination of 1 by 3 pixels; they overlap in column 1. -/
theorem mask_or_compositing_witness :
    (stripImage.rows ≤ rightMask.rows ∧ stripImage.cols ≤ rightMask.cols ∧
      stripImage.rows ≤ leftMask.rows ∧ stripImage.cols ≤ leftMask.cols ∧
      (0 : Int) ≤ (⟨0, 0⟩ : Point).x - (⟨0, 0, 3, 1⟩ : Rect).x ∧
      (0 : Int) ≤ (⟨0, 0⟩ : Point).y - (⟨0, 0, 3, 1⟩ : Rect).y ∧
      (0 : Int) ≤ (⟨1, 0⟩ : Point).x - (⟨0, 0, 3, 1⟩ : Rect).x ∧
      (0 : Int) ≤ (⟨1, 0⟩ : Point).y - (⟨0, 0, 3, 1⟩ : Rect).y ∧
      (⟨0, 0⟩ : Point).x - (⟨0, 0, 3, 1⟩ : Rect).x + stripImage.cols
        ≤ (Mat.filled 1 3 Point3.zero).cols ∧
      (⟨0, 0⟩ : Point).y - (⟨0, 0, 3, 1⟩ : Rect).y + stripImage.rows
        ≤ (Mat.filled 1 3 Point3.zero).rows ∧
      (⟨1, 0⟩ : Point).x - (⟨0, 0, 3, 1⟩ : Rect).x + stripImage.cols
        ≤ (Mat.filled 1 3 Point3.zero).cols ∧
      (⟨1, 0⟩ : Point).y - (⟨0, 0, 3, 1⟩ : Rect).y + stripImage.rows
        ≤ (Mat.filled 1 3 Point3.zero).rows) ∧
    ∃ a b,
      (getWarpedRegisteredImage stripImage rightMask ⟨0, 0⟩ ⟨0, 0, 3, 1⟩
          (Mat.filled (Mat.filled 1 3 Point3.zero).rows (Mat.filled 1 3 Point3.zero).cols 0)
          (Mat.filled 1 3 Point3.zero)).bind
        (fun s => getWarpedRegisteredImage stripImage leftMask ⟨1, 0⟩ ⟨0, 0, 3, 1⟩ s.1 s.2)
        = some a ∧
      (getWarpedRegisteredImage stripImage leftMask ⟨1, 0⟩ ⟨0, 0, 3, 1⟩
          (Mat.filled (Mat.filled 1 3 Point3.zero).rows (Mat.filled 1 3 Point3.zero).cols 0)
          (Mat.filled 1 3 Point3.zero)).bind
        (fun s => getWarpedRegisteredImage stripImage rightMask ⟨0, 0⟩ ⟨0, 0, 3, 1⟩ s.1 s.2)
        = some b ∧
      (∀ r c, a.1.px r c = b.1.px r c) ∧
      ∀ y1 x1 y2 x2, y1 < stripImage.rows → x1 < stripImage.cols →
        y2 < stripImage.rows → x2 < stripImage.cols →
        (⟨0, 0⟩ : Point).y - (⟨0, 0, 3, 1⟩ : Rect).y + y1
          = (⟨1, 0⟩ : Point).y - (⟨0, 0, 3, 1⟩ : Rect).y + y2 →
        (⟨0, 0⟩ : Point).x - (⟨0, 0, 3, 1⟩ : Rect).x + x1
          = (⟨1, 0⟩ : Point).x - (⟨0, 0, 3, 1⟩ : Rect).x + x2 →
        a.1.px ((⟨0, 0⟩ : Point).y - (⟨0, 0, 3, 1⟩ : Rect).y + y1).toNat
            ((⟨0, 0⟩ : Point).x - (⟨0, 0, 3, 1⟩ : Rect).x + x1).toNat
          = rightMask.px y1 x1 ||| leftMask.px y2 x2 ∧
        (a.1.px ((⟨0, 0⟩ : Point).y - (⟨0, 0, 3, 1⟩ : Rect).y + y1).toNat
            ((⟨0, 0⟩ : Point).x - (⟨0, 0, 3, 1⟩ : Rect).x + x1).toNat ≠ 0 ↔
          rightMask.px y1 x1 ≠ 0 ∨ leftMask.px y2 x2 ≠ 0) :=
  ⟨⟨by decide, by decide, by decide, by decide, by decide, by decide, by decide, by decide,
     by decide, by decide, by decide, by decide⟩,
   mask_or_compositing stripImage stripImage rightMask leftMask ⟨0, 0⟩ ⟨1, 0⟩ ⟨0, 0, 3, 1⟩
    (Mat.filled 1 3 Point3.zero) (by decide) (by decide) (by decide) (by decide) (by decide)
    (by decide) (by decide) (by decide) (by decide) (by decide) (by decide) (by decide)⟩

/-- C7. A warped image is placed with `getWarpedRegisteredImage` into a blank
buffer and a blank mask of the size of the destination rectangle, its footprint
lying inside the rectangle. The call returns; the destination mask at
`(tl.x - roi.x + x, tl.y - roi.y + y)` equals the source mask at `(x, y)`; the
destination pixel there equals the source pixel where the source mask is
non-zero and is still zero where it is zero; and every destination pixel and
mask value outside the footprint is still zero. -/
theorem placement_on_blank (img : Mat Point3) (mask : Mat Nat) (tl : Point) (dst_roi : Rect)
    (hmr : img.rows ≤ mask.rows) (hmc : img.cols ≤ mask.cols)
    (hx0 : 0 ≤ tl.x - dst_roi.x) (hy0 : 0 ≤ tl.y - dst_roi.y)
    (hx1 : tl.x - dst_roi.x + img.cols ≤ dst_roi.width)
    (hy1 : tl.y - dst_roi.y + img.rows ≤ dst_roi.height) :
    ∃ written,
      getWarpedRegisteredImage img mask tl dst_roi
        (Mat.filled dst_roi.height.toNat dst_roi.width.toNat 0)
        (Mat.filled dst_roi.height.toNat dst_roi.width.toNat Point3.zero) = some written ∧
      (∀ y x, y < img.rows → x < img.cols →
        written.1.px (tl.y - dst_roi.y + y).toNat (tl.x - dst_roi.x + x).toNat = mask.px y x ∧
        (mask.px y x ≠ 0 →
          written.2.px (tl.y - dst_roi.y + y).toNat (tl.x - dst_roi.x + x).toNat = img.px y x) ∧
        (mask.px y x = 0 →
          written.2.px (tl.y - dst_roi.y + y).toNat (tl.x - dst_roi.x + x).toNat
            = Point3.zero)) ∧
      (∀ r c, ¬ (∃ y x, y < img.rows ∧ x < img.cols ∧
            r = (tl.y - dst_roi.y + y).toNat ∧ c = (tl.x - dst_roi.x + x).toNat) →
        written.1.px r c = 0 ∧ written.2.px r c = Point3.zero) := by
  obtain ⟨cx, hcx⟩ := Int.eq_ofNat_of_zero_le hx0
  obtain ⟨cy, hcy⟩ := Int.eq_ofNat_of_zero_le hy0
  rw [hcx] at hx1
  rw [hcy] at hy1
  obtain ⟨st1, hst, hp⟩ := getWarpedRegisteredImage_placed img mask tl dst_roi
    (Mat.filled dst_roi.height.toNat dst_roi.width.toNat 0)
    (Mat.filled dst_roi.height.toNat dst_roi.width.toNat Point3.zero) cx cy hcx hcy hmr hmc
    (by show cy + img.rows ≤ dst_roi.height.toNat; omega)
    (by show cx + img.cols ≤ dst_roi.width.toNat; omega)
    (by show cy + img.rows ≤ dst_roi.height.toNat; omega)
    (by show cx + img.cols ≤ dst_roi.width.toNat; omega)
  refine ⟨st1, hst, ?_, ?_⟩
  · intro y x hy hx
    have e1 : (tl.y - dst_roi.y + (y : Int)).toNat = cy + y := by rw [hcy]; omega
    have e2 : (tl.x - dst_roi.x + (x : Int)).toNat = cx + x := by rw [hcx]; omega
    have hin : inFootprint cy cx img.rows img.cols (cy + y) (cx + x) := by
      unfold inFootprint; omega
    rw [e1, e2, hp.mask_px, hp.img_px, if_pos hin]
    simp only [Nat.add_sub_cancel_left, Mat.filled, Nat.zero_or, true_and]
    refine ⟨?_, ?_⟩
    · intro h; rw [if_pos ⟨hin, h⟩]
    · intro h; rw [if_neg]; simp [h]
  · intro r c hout
    have hnot : ¬ inFootprint cy cx img.rows img.cols r c := by
      intro hin
      unfold inFootprint at hin
      apply hout
      refine ⟨r - cy, c - cx, by omega, by omega, ?_, ?_⟩
      · rw [hcy]; omega
      · rw [hcx]; omega
    rw [hp.mask_px, hp.img_px, if_neg hnot, if_neg (fun h => hnot h.1)]
    exact ⟨rfl, rfl⟩

/-- Witness of C7: a strip of 1 by 2 pixels with corner (5, 7) in the destination
rectangle with corner (4, 6), width 4 and height 3. -/
theorem placement_on_blank_witness :
    (stripImage.rows ≤ leftMask.rows ∧ stripImage.cols ≤ leftMask.cols ∧
      (0 : Int) ≤ (⟨5, 7⟩ : Point).x - (⟨4, 6, 4, 3⟩ : Rect).x ∧
      (0 : Int) ≤ (⟨5, 7⟩ : Point).y - (⟨4, 6, 4, 3⟩ : Rect).y ∧
      (⟨5, 7⟩ : Point).x - (⟨4, 6, 4, 3⟩ : Rect).x + stripImage.cols
        ≤ (⟨4, 6, 4, 3⟩ : Rect).width ∧
      (⟨5, 7⟩ : Point).y - (⟨4, 6, 4, 3⟩ : Rect).y + stripImage.rows
        ≤ (⟨4, 6, 4, 3⟩ : Rect).height) ∧
    ∃ written,
      getWarpedRegisteredImage stripImage leftMask ⟨5, 7⟩ ⟨4, 6, 4, 3⟩
        (Mat.filled (⟨4, 6, 4, 3⟩ : Rect).height.toNat (⟨4, 6, 4, 3⟩ : Rect).width.toNat 0)
        (Mat.filled (⟨4, 6, 4, 3⟩ : Rect).height.toNat (⟨4, 6, 4, 3⟩ : Rect).width.toNat
          Point3.zero) = some written ∧
      (∀ y x, y < stripImage.rows → x < stripImage.cols →
        written.1.px ((⟨5, 7⟩ : Point).y - (⟨4, 6, 4, 3⟩ : Rect).y + y).toNat
            ((⟨5, 7⟩ : Point).x - (⟨4, 6, 4, 3⟩ : Rect).x + x).toNat = leftMask.px y x ∧
        (leftMask.px y x ≠ 0 →
          written.2.px ((⟨5, 7⟩ : Point).y - (⟨4, 6, 4, 3⟩ : Rect).y + y).toNat
            ((⟨5, 7⟩ : Point).x - (⟨4, 6, 4, 3⟩ : Rect).x + x).toNat = stripImage.px y x) ∧
        (leftMask.px y x = 0 →
          written.2.px ((⟨5, 7⟩ : Point).y - (⟨4, 6, 4, 3⟩ : Rect).y + y).toNat
            ((⟨5, 7⟩ : Point).x - (⟨4, 6, 4, 3⟩ : Rect).x + x).toNat = Point3.zero)) ∧
      (∀ r c, ¬ (∃ y x, y < stripImage.rows ∧ x < stripImage.cols ∧
            r = ((⟨5, 7⟩ : Point).y - (⟨4, 6, 4, 3⟩ : Rect).y + y).toNat ∧
            c = ((⟨5, 7⟩ : Point).x - (⟨4, 6, 4, 3⟩ : Rect).x + x).toNat) →
        written.1.px r c = 0 ∧ written.2.px r c = Point3.zero) :=
  ⟨⟨by decide, by decide, by decide, by decide, by decide, by decide⟩,
   placement_on_blank stripImage leftMask ⟨5, 7⟩ ⟨4, 6, 4, 3⟩ (by decide) (by decide)
    (by decide) (by decide) (by decide) (by decide)⟩

/-- C8 (counterexample). In a run on two images in which the bundle adjuster
returns false, `getStitchingParams` prints the failure line and still writes
`cam1.yml` and `cam2.yml`; likewise when the estimator returns false. -/
theorem failed_stage_still_persists :
    (getStitchingParams failingAdjusterEnv (Config.default : Config ℚ) demoImages).cout
      = ["Camera parameters adjusting failed.\n"] ∧
    (getStitchingParams failingAdjusterEnv (Config.default : Config ℚ) demoImages).files.map
      Prod.fst = ["cam1.yml", "cam2.yml"] ∧
    (getStitchingParams failingEstimatorEnv (Config.default : Config ℚ) demoImages).cout
      = ["Homography estimation failed.\n"] ∧
    (getStitchingParams failingEstimatorEnv (Config.default : Config ℚ) demoImages).files.map
      Prod.fst = ["cam1.yml", "cam2.yml"] := by
  decide

/-- C8 (amended). A `false` returned by the pose estimator or by the bundle
adjuster only adds a line to `cout` and does not gate persistence: whenever the
finder and the adjuster exist and the mask string can be indexed, the failure
lines printed are exactly those of the stages that returned `false`, the files
`getStitchingParams` writes are the same whatever the two return values are,
and, when `cameras` has an entry for every image, the run writes the record of
camera `i` into `cam<i+1>.yml` for every image `i`. -/
theorem persistence_not_gated_by_failure {α : Type} [LinearOrderedField α] (env : Env α)
    (cfg : Config α) (InputImage : List (Mat Point3))
    (hf : (makeFinder cfg.features_type).isSome = true)
    (ha : (makeAdjuster cfg.ba_cost_func).isSome = true)
    (hm : 4 ≤ cfg.ba_refine_mask.length) :
    (∀ estimated adjusted : Bool,
      (registration (env.withResults estimated adjusted) cfg InputImage).1
        = (if estimated then [] else ["Homography estimation failed.\n"])
          ++ (if adjusted then [] else ["Camera parameters adjusting failed.\n"]) ∧
      (getStitchingParams (env.withResults estimated adjusted) cfg InputImage).files
        = (getStitchingParams env cfg InputImage).files) ∧
    ∃ reg, (registration env cfg InputImage).2 = some reg ∧
      (InputImage.length ≤ reg.cameras.length →
        (getStitchingParams env cfg InputImage).files
          = (List.range InputImage.length).map (persistedFile env.K reg.cameras) ∧
        (getStitchingParams env cfg InputImage).files.map Prod.fst
          = (List.range InputImage.length).map camFileName) := by
  constructor
  · intro b1 b2
    constructor
    · obtain ⟨fk, hfk⟩ := Option.isSome_iff_exists.mp hf
      obtain ⟨ak, hak⟩ := Option.isSome_iff_exists.mp ha
      obtain ⟨m, hmk⟩ := refineMask_isSome cfg.ba_refine_mask.toList (by simpa using hm)
      unfold registration
      simp only [hfk, hak, hmk, Env.withResults]
      cases b1 <;> cases b2 <;> rfl
    · rw [getStitchingParams_files_eq, getStitchingParams_files_eq, registration_withResults]
      rfl
  · obtain ⟨reg, hreg⟩ := registration_isSome env cfg InputImage hf ha hm
    refine ⟨reg, hreg, ?_⟩
    intro hlen
    have e : (getStitchingParams env cfg InputImage).files
        = (List.range InputImage.length).map (persistedFile env.K reg.cameras) := by
      rw [getStitchingParams_files env cfg InputImage reg hreg,
        persistCameras_eq env.K reg.cameras InputImage.length hlen]
    refine ⟨e, ?_⟩
    rw [e, List.map_map]
    apply List.map_congr_left
    intro i hi
    have hlt : i < reg.cameras.length := by
      have := List.mem_range.mp hi
      omega
    simp [persistedFile, List.getElem?_eq_getElem hlt]

/-- Witness of C8 (amended): the run on `demoImages` in `demoEnv` with the
default configuration. -/
theorem persistence_not_gated_by_failure_witness :
    ((makeFinder (Config.default : Config ℚ).features_type).isSome = true ∧
     (makeAdjuster (Config.default : Config ℚ).ba_cost_func).isSome = true ∧
     4 ≤ (Config.default : Config ℚ).ba_refine_mask.length) ∧
    ((∀ estimated adjusted : Bool,
      (registration (demoEnv.withResults estimated adjusted) Config.default demoImages).1
        = (if estimated then [] else ["Homography estimation failed.\n"])
          ++ (if adjusted then [] else ["Camera parameters adjusting failed.\n"]) ∧
      (getStitchingParams (demoEnv.withResults estimated adjusted) Config.default
          demoImages).files
        = (getStitchingParams demoEnv Config.default demoImages).files) ∧
    ∃ reg, (registration demoEnv Config.default demoImages).2 = some reg ∧
      (demoImages.length ≤ reg.cameras.length →
        (getStitchingParams demoEnv Config.default demoImages).files
          = (List.range demoImages.length).map (persistedFile demoEnv.K reg.cameras) ∧
        (getStitchingParams demoEnv Config.default demoImages).files.map Prod.fst
          = (List.range demoImages.length).map camFileName)) :=
  ⟨⟨by decide, by decide, by decide⟩,
   persistence_not_gated_by_failure demoEnv Config.default demoImages
    (by decide) (by decide) (by decide)⟩

/-- C9. When the command line supplies 0 or 1 images (`argc - 1 < 2`), `main`
returns -1 after printing `Need more images`, does not call
`getStitchingParams` and writes no file. -/
theorem main_too_few_images {α : Type} [LinearOrderedField α] (env : Env α) (cfg : Config α)
    (argv : List String) (h : argv.length - 1 < 2) :
    (main env cfg argv).status = some (-1) ∧
    (main env cfg argv).calledGetStitchingParams = false ∧
    (main env cfg argv).files = [] ∧
    (main env cfg argv).cout = ["Need more images\n"] := by
  have h2 : ((argv.drop 1).map env.imread).length < 2 := by simpa using h
  unfold main
  simp only [h2, if_true, and_self]

/-- Witness of C9: a command line with one image name. -/
theorem main_too_few_images_witness :
    ["getStitchingParam", "left.jpg"].length - 1 < 2 ∧
    ((main demoEnv (Config.default : Config ℚ) ["getStitchingParam", "left.jpg"]).status
        = some (-1) ∧
     (main demoEnv (Config.default : Config ℚ)
        ["getStitchingParam", "left.jpg"]).calledGetStitchingParams = false ∧
     (main demoEnv (Config.default : Config ℚ) ["getStitchingParam", "left.jpg"]).files = [] ∧
     (main demoEnv (Config.default : Config ℚ) ["getStitchingParam", "left.jpg"]).cout
        = ["Need more images\n"]) :=
  ⟨by decide, main_too_few_images demoEnv Config.default ["getStitchingParam", "left.jpg"]
    (by decide)⟩

/-- C10 (counterexample). With wave correction enabled and a `waveCorrect` that
turns every rotation by a quarter turn, the rotation written to `cam1.yml` and
`cam2.yml` has entry (0,0) equal to 1 (the rotation left by bundle adjustment)
while the rotation handed to the warper, in the auxiliary pass and in the
compose loop, has entry (0,0) equal to 0. -/
theorem persisted_rotation_differs_from_warper_rotation :
    (Config.default : Config ℚ).do_wave_correct = true ∧
    (getStitchingParams demoEnv (Config.default : Config ℚ) demoImages).files.map
      (fun f => (f.1, f.2.rotation?.map fun R => R.px 0 0))
        = [("cam1.yml", some 1), ("cam2.yml", some 1)] ∧
    (getStitchingParams demoEnv (Config.default : Config ℚ) demoImages).seam.map
      (fun sp => sp.seam.warpArgs.map fun a => a.2.px 0 0) = some [0, 0] ∧
    (getStitchingParams demoEnv (Config.default : Config ℚ) demoImages).result.map
      (fun final => final.warpArgs.map fun a => a.2.px 0 0) = some [0, 0] := by
  decide!

/-- C10 (amended). Persistence happens after bundle adjustment and before wave
correction: in every run that reaches the compose loop, the record written to
`cam<i+1>.yml` is that of camera `i` as bundle adjustment left it, while the
rotation handed to the warper for camera `i`, in the auxiliary pass and in the
compose loop, is the rotation of camera `i` after the wave-correction stage:
entry `i` of the output of `waveCorrect` when wave correction is enabled, the
persisted rotation when it is disabled. -/
theorem persisted_rotation_precedes_wave_correction {α : Type} [LinearOrderedField α]
    (env : Env α) (cfg : Config α) (InputImage : List (Mat Point3)) (sp : SeamPass α)
    (hseam : (getStitchingParams env cfg InputImage).seam = some sp) :
    ∃ reg, (registration env cfg InputImage).2 = some reg ∧
      ∀ i, i < InputImage.length → ∃ cam cam1,
        reg.cameras[i]? = some cam ∧ sp.cameras[i]? = some cam1 ∧
        (getStitchingParams env cfg InputImage).files[i]?
          = some (camFileName i, camRecordOf env.K cam) ∧
        (cfg.do_wave_correct = true →
          (env.waveCorrect (reg.cameras.map fun c => c.R) cfg.wave_correct)[i]?
            = some cam1.R) ∧
        (cfg.do_wave_correct = false → cam1.R = cam.R) ∧
        (sp.seam.warpArgs[i]?).map Prod.snd = some cam1.R ∧
        ∀ final, (getStitchingParams env cfg InputImage).result = some final →
          (final.warpArgs[i]?).map Prod.snd = some cam1.R := by
  obtain ⟨reg, hreg, hlen, hsp, hres⟩ := getStitchingParams_seam env cfg InputImage sp hseam
  obtain ⟨hwc, _, _, hargs⟩ := seamPass_eq env cfg InputImage.length reg sp hsp
  refine ⟨reg, hreg, ?_⟩
  intro i hi
  have hilt : i < reg.cameras.length := by omega
  obtain ⟨cam1, hcam1, hon, hoff⟩ := waveCorrectStage_eq env cfg reg.cameras sp.cameras hwc i
    reg.cameras[i] (List.getElem?_eq_getElem hilt)
  obtain ⟨cam2, hcam2, harg⟩ := hargs i hi
  have e12 : cam2 = cam1 := by
    rw [hcam1] at hcam2
    exact (Option.some.inj hcam2).symm
  subst e12
  refine ⟨reg.cameras[i], cam2, List.getElem?_eq_getElem hilt, hcam1, ?_, hon,
    fun h => by rw [hoff h], ?_, ?_⟩
  · rw [getStitchingParams_files env cfg InputImage reg hreg,
      persistCameras_eq env.K reg.cameras InputImage.length hlen,
      List.getElem?_map, List.getElem?_range hi]
    simp [persistedFile, List.getElem?_eq_getElem hilt]
  · rw [harg]; rfl
  · intro final hfinal
    rw [hres] at hfinal
    rcases composeLoop_invariant env cfg InputImage reg sp final hfinal with
      ⟨h0, _⟩ | ⟨_, img0, s1, _, hft, hc⟩
    · omega
    · have hup := composeFirstTouch_updated env cfg sp.warper_creator reg.scales.work_scale
        InputImage.length reg.full_img_sizes (composeInit env reg sp) s1 img0 hft
      obtain ⟨cam3, _, a, _, c, _, _⟩ := hup.done i hi
      have e3 : cam3 = cam2 := by
        have : sp.cameras[i]? = some cam3 := a
        rw [hcam1] at this
        exact (Option.some.inj this).symm
      subst e3
      obtain ⟨cam4, h4, harg4⟩ := hc.args i hi
      rw [c] at h4
      have e4 := Option.some.inj h4
      have e0 : s1.warpArgs.length = 0 := by rw [hup.frame]; rfl
      rw [e0, Nat.zero_add] at harg4
      rw [harg4, ← e4]
      rfl

/-- Witness of C10 (amended): the run on `demoImages` in `demoEnv` with the
default configuration reaches the compose loop. -/
theorem persisted_rotation_precedes_wave_correction_witness :
    ∃ sp, (getStitchingParams demoEnv (Config.default : Config ℚ) demoImages).seam = some sp ∧
      ∃ reg, (registration demoEnv (Config.default : Config ℚ) demoImages).2 = some reg ∧
        ∀ i, i < demoImages.length → ∃ cam cam1,
          reg.cameras[i]? = some cam ∧ sp.cameras[i]? = some cam1 ∧
          (getStitchingParams demoEnv (Config.default : Config ℚ) demoImages).files[i]?
            = some (camFileName i, camRecordOf demoEnv.K cam) ∧
          ((Config.default : Config ℚ).do_wave_correct = true →
            (demoEnv.waveCorrect (reg.cameras.map fun c => c.R)
              (Config.default : Config ℚ).wave_correct)[i]? = some cam1.R) ∧
          ((Config.default : Config ℚ).do_wave_correct = false → cam1.R = cam.R) ∧
          (sp.seam.warpArgs[i]?).map Prod.snd = some cam1.R ∧
          ∀ final, (getStitchingParams demoEnv (Config.default : Config ℚ) demoImages).result
              = some final →
            (final.warpArgs[i]?).map Prod.snd = some cam1.R :=
  have h : (getStitchingParams demoEnv (Config.default : Config ℚ) demoImages).seam.isSome
      = true := by decide
  ⟨_, (Option.some_get h).symm,
    persisted_rotation_precedes_wave_correction demoEnv Config.default demoImages _
      (Option.some_get h).symm⟩


/-! ## Bounds of the copy loops -/

/-- The footprint of an image whose corner and size are entry `idx` of the lists
lies inside the bounding rectangle of the lists. -/
theorem footprint_in_boundingRect (corners : List Point) (sizes : List Size) (idx : Nat)
    (c : Point) (s : Size) (hc : corners[idx]? = some c) (hs : sizes[idx]? = some s)
    (rows cols : Nat) (hrows : (rows : Int) = s.height) (hcols : (cols : Int) = s.width) :
    0 ≤ c.x - (boundingRect corners sizes).x ∧ 0 ≤ c.y - (boundingRect corners sizes).y ∧
    c.x - (boundingRect corners sizes).x + cols ≤ (boundingRect corners sizes).width.toNat ∧
    c.y - (boundingRect corners sizes).y + rows ≤ (boundingRect corners sizes).height.toNat := by
  have hcov := boundingRect_covers corners sizes idx c s hc hs
  unfold Rect.covers at hcov
  obtain ⟨h1, h2, h3, h4⟩ := hcov
  refine ⟨by omega, by omega, ?_, ?_⟩
  · omega
  · omega

/-- Lines 443-480 at the call site: when `resultRoi` returns the bounding
rectangle and the warper returns, for camera `img_idx`, an image of the size
`sizes[img_idx]` and a mask at least as large, `composeImage` returns: no access
of `getWarpedRegisteredImage` is out of range. -/
theorem composeImage_returns {α : Type} [LinearOrderedField α] (env : Env α)
    (st : ComposeState α) (img_idx : Nat) (full_img : Mat Point3) (cam : CameraParams α)
    (corner : Point) (s : Size)
    (hcam : st.cameras[img_idx]? = some cam) (hcor : st.corners[img_idx]? = some corner)
    (hs : st.sizes[img_idx]? = some s)
    (hroi : env.resultRoi st.corners st.sizes = boundingRect st.corners st.sizes)
    (hwarp : ∀ img : Mat Point3,
      ((st.warper.warp img (env.K cam) cam.R).2.rows : Int) = s.height ∧
      ((st.warper.warp img (env.K cam) cam.R).2.cols : Int) = s.width ∧
      (st.warper.warp img (env.K cam) cam.R).2.rows
        ≤ (st.warper.warpMask (Mat.filled img.rows img.cols 255) (env.K cam) cam.R).2.rows ∧
      (st.warper.warp img (env.K cam) cam.R).2.cols
        ≤ (st.warper.warpMask (Mat.filled img.rows img.cols 255) (env.K cam) cam.R).2.cols) :
    ∃ st1, composeImage env st img_idx full_img = some st1 := by
  unfold composeImage
  simp only [hcam, hcor, hroi]
  generalize (if |st.compose_scale - 1| > 1 / 10 then
      env.resize full_img st.compose_scale st.compose_scale else full_img) = img
  obtain ⟨w1, w2, w3, w4⟩ := hwarp img
  obtain ⟨hx0, hy0, hx1, hy1⟩ := footprint_in_boundingRect st.corners st.sizes img_idx corner s
    hcor hs _ _ w1 w2
  have hneg : ¬ ((boundingRect st.corners st.sizes).width < 0 ∨
      (boundingRect st.corners st.sizes).height < 0) := by
    have hcov := boundingRect_covers st.corners st.sizes img_idx corner s hcor hs
    unfold Rect.covers at hcov
    omega
  rw [if_neg hneg]
  obtain ⟨cx, hcx⟩ := Int.eq_ofNat_of_zero_le hx0
  obtain ⟨cy, hcy⟩ := Int.eq_ofNat_of_zero_le hy0
  rw [hcx] at hx1
  rw [hcy] at hy1
  obtain ⟨st1, hst, _⟩ := getWarpedRegisteredImage_placed
    (st.warper.warp img (env.K cam) cam.R).2
    (st.warper.warpMask (Mat.filled img.rows img.cols 255) (env.K cam) cam.R).2 corner
    (boundingRect st.corners st.sizes)
    (Mat.filled (boundingRect st.corners st.sizes).height.toNat
      (boundingRect st.corners st.sizes).width.toNat 0)
    (Mat.filled (boundingRect st.corners st.sizes).height.toNat
      (boundingRect st.corners st.sizes).width.toNat Point3.zero) cx cy hcx hcy w3 w4
    (by show cy + _ ≤ (boundingRect st.corners st.sizes).height.toNat; omega)
    (by show cx + _ ≤ (boundingRect st.corners st.sizes).width.toNat; omega)
    (by show cy + _ ≤ (boundingRect st.corners st.sizes).height.toNat; omega)
    (by show cx + _ ≤ (boundingRect st.corners st.sizes).width.toNat; omega)
  rw [hst]
  exact ⟨_, rfl⟩

/-- C11. Let `corners` and `sizes` have an entry `idx`, let `dst_roi` be the
minimal rectangle covering all (corner, corner + size) pairs, let the two
destination buffers have the size of `dst_roi` and let the image have the size
`sizes[idx]` and the corner `corners[idx]`. Then every row index `corner_y + y`
and every column index `corner_x + x` of the copy loops of
`getWarpedRegisteredImage` lies within the destination (`0 ≤ corner_y + y <
rows`, `0 ≤ corner_x + x < cols`), and, the mask being at least as large as the
image, the call returns: no access is out of range. -/
theorem copy_loops_within_destination (corners : List Point) (sizes : List Size) (idx : Nat)
    (c : Point) (s : Size) (img : Mat Point3) (mask : Mat Nat)
    (hc : corners[idx]? = some c) (hs : sizes[idx]? = some s)
    (hrows : (img.rows : Int) = s.height) (hcols : (img.cols : Int) = s.width) :
    (∀ y x, y < img.rows → x < img.cols →
      0 ≤ c.y - (boundingRect corners sizes).y + y ∧
      c.y - (boundingRect corners sizes).y + y
        < (Mat.filled (boundingRect corners sizes).height.toNat
            (boundingRect corners sizes).width.toNat Point3.zero).rows ∧
      0 ≤ c.x - (boundingRect corners sizes).x + x ∧
      c.x - (boundingRect corners sizes).x + x
        < (Mat.filled (boundingRect corners sizes).height.toNat
            (boundingRect corners sizes).width.toNat Point3.zero).cols) ∧
    (img.rows ≤ mask.rows → img.cols ≤ mask.cols →
      ∃ written,
        getWarpedRegisteredImage img mask c (boundingRect corners sizes)
          (Mat.filled (boundingRect corners sizes).height.toNat
            (boundingRect corners sizes).width.toNat 0)
          (Mat.filled (boundingRect corners sizes).height.toNat
            (boundingRect corners sizes).width.toNat Point3.zero) = some written) := by
  obtain ⟨hx0, hy0, hx1, hy1⟩ := footprint_in_boundingRect corners sizes idx c s hc hs
    img.rows img.cols hrows hcols
  constructor
  · intro y x hy hx
    show _ ∧ _ < ((boundingRect corners sizes).height.toNat : Int) ∧ _ ∧
      _ < ((boundingRect corners sizes).width.toNat : Int)
    omega
  · intro hmr hmc
    obtain ⟨cx, hcx⟩ := Int.eq_ofNat_of_zero_le hx0
    obtain ⟨cy, hcy⟩ := Int.eq_ofNat_of_zero_le hy0
    rw [hcx] at hx1
    rw [hcy] at hy1
    obtain ⟨st1, hst, _⟩ := getWarpedRegisteredImage_placed img mask c
      (boundingRect corners sizes)
      (Mat.filled (boundingRect corners sizes).height.toNat
        (boundingRect corners sizes).width.toNat 0)
      (Mat.filled (boundingRect corners sizes).height.toNat
        (boundingRect corners sizes).width.toNat Point3.zero) cx cy hcx hcy hmr hmc
      (by show cy + img.rows ≤ (boundingRect corners sizes).height.toNat; omega)
      (by show cx + img.cols ≤ (boundingRect corners sizes).width.toNat; omega)
      (by show cy + img.rows ≤ (boundingRect corners sizes).height.toNat; omega)
      (by show cx + img.cols ≤ (boundingRect corners sizes).width.toNat; omega)
    exact ⟨st1, hst⟩

/-- Witness of C11: corners (0, 0) and (5, 10) with sizes 100 by 100 and 50 by
50; the second image, of 50 by 50 pixels, is placed at corner (5, 10) in the
bounding rectangle, which has corner (0, 0), width 100 and height 100. -/
theorem copy_loops_within_destination_witness :
    (([⟨0, 0⟩, ⟨5, 10⟩] : List Point)[1]? = some ⟨5, 10⟩ ∧
      ([⟨100, 100⟩, ⟨50, 50⟩] : List Size)[1]? = some ⟨50, 50⟩ ∧
      (patchImage.rows : Int) = (⟨50, 50⟩ : Size).height ∧
      (patchImage.cols : Int) = (⟨50, 50⟩ : Size).width) ∧
    boundingRect [⟨0, 0⟩, ⟨5, 10⟩] [⟨100, 100⟩, ⟨50, 50⟩] = ⟨0, 0, 100, 100⟩ ∧
    ((∀ y x, y < patchImage.rows → x < patchImage.cols →
      0 ≤ (⟨5, 10⟩ : Point).y - (boundingRect [⟨0, 0⟩, ⟨5, 10⟩] [⟨100, 100⟩, ⟨50, 50⟩]).y + y ∧
      (⟨5, 10⟩ : Point).y - (boundingRect [⟨0, 0⟩, ⟨5, 10⟩] [⟨100, 100⟩, ⟨50, 50⟩]).y + y
        < (Mat.filled (boundingRect [⟨0, 0⟩, ⟨5, 10⟩] [⟨100, 100⟩, ⟨50, 50⟩]).height.toNat
            (boundingRect [⟨0, 0⟩, ⟨5, 10⟩] [⟨100, 100⟩, ⟨50, 50⟩]).width.toNat
            Point3.zero).rows ∧
      0 ≤ (⟨5, 10⟩ : Point).x - (boundingRect [⟨0, 0⟩, ⟨5, 10⟩] [⟨100, 100⟩, ⟨50, 50⟩]).x + x ∧
      (⟨5, 10⟩ : Point).x - (boundingRect [⟨0, 0⟩, ⟨5, 10⟩] [⟨100, 100⟩, ⟨50, 50⟩]).x + x
        < (Mat.filled (boundingRect [⟨0, 0⟩, ⟨5, 10⟩] [⟨100, 100⟩, ⟨50, 50⟩]).height.toNat
            (boundingRect [⟨0, 0⟩, ⟨5, 10⟩] [⟨100, 100⟩, ⟨50, 50⟩]).width.toNat
            Point3.zero).cols) ∧
    (patchImage.rows ≤ patchMask.rows → patchImage.cols ≤ patchMask.cols →
      ∃ written,
        getWarpedRegisteredImage patchImage patchMask ⟨5, 10⟩
          (boundingRect [⟨0, 0⟩, ⟨5, 10⟩] [⟨100, 100⟩, ⟨50, 50⟩])
          (Mat.filled (boundingRect [⟨0, 0⟩, ⟨5, 10⟩] [⟨100, 100⟩, ⟨50, 50⟩]).height.toNat
            (boundingRect [⟨0, 0⟩, ⟨5, 10⟩] [⟨100, 100⟩, ⟨50, 50⟩]).width.toNat 0)
          (Mat.filled (boundingRect [⟨0, 0⟩, ⟨5, 10⟩] [⟨100, 100⟩, ⟨50, 50⟩]).height.toNat
            (boundingRect [⟨0, 0⟩, ⟨5, 10⟩] [⟨100, 100⟩, ⟨50, 50⟩]).width.toNat
            Point3.zero) = some written)) :=
  ⟨⟨by decide, by decide, by decide, by decide⟩, by decide,
   copy_loops_within_destination [⟨0, 0⟩, ⟨5, 10⟩] [⟨100, 100⟩, ⟨50, 50⟩] 1 ⟨5, 10⟩ ⟨50, 50⟩
    patchImage patchMask (by decide) (by decide) (by decide) (by decide)⟩

end Stitching
